import Mathlib

/-!
Shallow embedding of the stateful orchestration layer of the telegram-sender
service (src/state.rs): the per-chat cleaning status registry, the bulk
membership cleanup workflow, the scheduled message dispatcher and the
deprecated chat reaper.  External effects (the messaging platform client and
the relational store) are modelled by an explicit environment of result
oracles; each operation of AppState becomes a function from the environment
and the directory state to an outcome carrying the returned Result, the
updated state and a trace of the platform calls it issued.
-/

/-- Decidable equality of Except values with decidable components. -/
instance {ε α : Type} [DecidableEq ε] [DecidableEq α] : DecidableEq (Except ε α)
  | .ok a, .ok b => if h : a = b then .isTrue (by rw [h]) else .isFalse (by simp [h])
  | .error a, .error b =>
    if h : a = b then .isTrue (by rw [h]) else .isFalse (by simp [h])
  | .ok _, .error _ => .isFalse (by simp)
  | .error _, .ok _ => .isFalse (by simp)

namespace TgSender

/-- Cleaning status of one chat, mirroring ChatCleaningStatus in state.rs. -/
inductive ChatCleaningStatus where
  | Idle
  | Queued
  | InProgress
  | Error (reason : String)
deriving DecidableEq, Repr

/-- A row of the tg_chat table (struct Chat in state.rs). -/
structure Chat where
  id : Int
  name : String
deriving DecidableEq, Repr

/-- A row of the tg_user table (struct User in state.rs). -/
structure User where
  id : Int
  chat_id : Int
  username : String
  name : String
deriving DecidableEq, Repr

/-- A row of the message_queue table (struct QueuedMessage in state.rs). -/
structure QueuedMessage where
  id : Int
  chats : List Int
  message : String
  images : List String
  datetime : String
deriving DecidableEq, Repr

/-- The kind of a live telegram chat object, as classified by the
is_supergroup and is_channel predicates used in delete_all_members. -/
inductive ChatKind where
  | group
  | supergroup
  | channel
  | privateChat
deriving DecidableEq, Repr

/-- The live telegram chat object returned by bot.get_chat. -/
structure TgChat where
  id : Int
  title : Option String
  kind : ChatKind
deriving DecidableEq, Repr

/-- The live telegram user object (teloxide types User) as consumed by
new_chat_member: its id, optional username and full name. -/
structure TgUser where
  id : Int
  username : Option String
  full_name : String
deriving DecidableEq, Repr

/-- The kind of a chat member returned by bot.get_chat_member
(teloxide ChatMemberKind). -/
inductive ChatMemberKind where
  | Owner
  | Administrator
  | Member
  | Restricted
  | Left
  | Banned
deriving DecidableEq, Repr

/-- is_privileged on a chat member kind: owners and administrators. -/
def ChatMemberKind.is_privileged : ChatMemberKind → Bool
  | .Owner => true
  | .Administrator => true
  | _ => false

/-- Structured telegram api errors relevant to the reaper
(teloxide ApiError variants matched in cleanup_deprecated_chats_loop):
the three matched variants, plus an Unknown wrapper for errors that only
carry text, plus a catch-all for every other structured variant. -/
inductive ApiError where
  | ChatNotFound
  | BotKicked
  | BotKickedFromSupergroup
  | Unknown (text : String)
  | OtherApi (text : String)
deriving DecidableEq, Repr

/-- Display of an api error, mirroring the to_string used by the reaper:
teloxide renders ApiError.Unknown(s) as the text below. -/
def ApiError.display : ApiError → String
  | .ChatNotFound => "Bad Request: chat not found"
  | .BotKicked => "Forbidden: bot was kicked from the group chat"
  | .BotKickedFromSupergroup => "Forbidden: bot was kicked from the supergroup chat"
  | .Unknown t => "Unknown error: \"" ++ t ++ "\""
  | .OtherApi t => t

/-- A teloxide RequestError: either a structured api error or a transport
level failure. -/
inductive RequestError where
  | Api (e : ApiError)
  | Network (text : String)
deriving DecidableEq, Repr

/-- The identity of one sql statement issued by state.rs, used as the key of
the store failure oracle in the environment. -/
inductive DbOp where
  | insertChat (id : Int)
  | deleteChat (id : Int)
  | updateChatId (oldId newId : Int)
  | selectChats
  | selectMembers (chatId : Int)
  | insertMember (userId chatId : Int)
  | deleteMember (userId chatId : Int)
  | insertQueued
  | deleteQueued (id : Int)
  | selectQueue
deriving DecidableEq, Repr

/-- The environment of external collaborators: the platform client results
and the store failure oracle.  A DbOp with dbOk false raises the sqlx error
that the source propagates with the question mark operator. -/
structure Env where
  getMe : Except String Int
  getChat : Int → Except String TgChat
  getChatMember : Int → Int → Except RequestError ChatMemberKind
  kickMember : Int → Int → Except String Unit
  unbanMember : Int → Int → Except String Unit
  sendMediaGroupRes : Int → Except String Unit
  sendMessageRes : Int → Except String Unit
  parseRfc3339 : String → Option Int
  now : Int
  dbOk : DbOp → Bool

/-- The mutable state owned by the process: the relational tables and the
in-memory chats_status map (the DashMap), as an association list. -/
structure DirState where
  tg_chat : List Chat
  tg_user : List User
  message_queue : List QueuedMessage
  chats_status : List (Int × ChatCleaningStatus)
deriving DecidableEq, Repr

/-- One observable platform side effect, recorded in execution traces. -/
inductive Event where
  | sweepStart (chatId : Int)
  | kickCall (chatId userId : Int)
  | unbanCall (chatId userId : Int)
  | sendMediaCall (chatId : Int)
  | sendTextCall (chatId : Int)
deriving DecidableEq, Repr

/-- Outcome of one operation: the Result value the rust function returned,
the state after the operation, and the platform calls it made. -/
structure Outcome where
  res : Except String Unit
  st : DirState
  tr : List Event
deriving DecidableEq, Repr

/-- Lookup in the chats_status association list. -/
def lookupStatus (m : List (Int × ChatCleaningStatus)) (k : Int) :
    Option ChatCleaningStatus :=
  match m with
  | [] => none
  | (k2, v) :: rest => if k = k2 then some v else lookupStatus rest k

/-- DashMap entry(k).or_insert(v): insert only when the key is absent. -/
def orInsert (m : List (Int × ChatCleaningStatus)) (k : Int)
    (v : ChatCleaningStatus) : List (Int × ChatCleaningStatus) :=
  match m with
  | [] => [(k, v)]
  | (k2, v2) :: rest =>
    if k = k2 then (k2, v2) :: rest else (k2, v2) :: orInsert rest k v

/-- Overwrite of the value stored under an existing key. -/
def setStatus (m : List (Int × ChatCleaningStatus)) (k : Int)
    (v : ChatCleaningStatus) : List (Int × ChatCleaningStatus) :=
  match m with
  | [] => []
  | (k2, v2) :: rest =>
    if k = k2 then (k2, v) :: rest else (k2, v2) :: setStatus rest k v

/-- DashMap remove: drop every binding of the key. -/
def removeKey (m : List (Int × ChatCleaningStatus)) (k : Int) :
    List (Int × ChatCleaningStatus) :=
  m.filter (fun p => ¬ (p.1 = k))

/-- AppState set_chat_status: overwrite the status, failing with the
anyhow context Chat not found when the key has no entry. -/
def set_chat_status (m : List (Int × ChatCleaningStatus)) (k : Int)
    (v : ChatCleaningStatus) :
    Except String (List (Int × ChatCleaningStatus)) :=
  match lookupStatus m k with
  | none => .error "Chat not found"
  | some _ => .ok (setStatus m k v)

/-- The upsert of INSERT INTO tg_chat ... ON CONFLICT (id) DO UPDATE SET
name: update the name when a row with the id exists, append otherwise. -/
def upsertChat (rows : List Chat) (id : Int) (name : String) : List Chat :=
  match rows with
  | [] => [⟨id, name⟩]
  | c :: rest =>
    if c.id = id then ⟨c.id, name⟩ :: rest else c :: upsertChat rest id name

/-- The upsert of INSERT INTO tg_user ... ON CONFLICT (id, chat_id) DO
UPDATE SET username, name. -/
def upsertUser (rows : List User) (userId chatId : Int)
    (username name : String) : List User :=
  match rows with
  | [] => [⟨userId, chatId, username, name⟩]
  | u :: rest =>
    if u.id = userId ∧ u.chat_id = chatId then
      ⟨u.id, u.chat_id, username, name⟩ :: rest
    else u :: upsertUser rest userId chatId username name

/-- AppState new_chat: first chats_status.entry(id).or_insert(Idle), then
the tg_chat upsert, whose failure is propagated after the map insert. -/
def new_chat (env : Env) (st : DirState) (chat : TgChat) : Outcome :=
  let id := chat.id
  let name := chat.title.getD ""
  let st1 := { st with chats_status := orInsert st.chats_status id .Idle }
  if env.dbOk (.insertChat id) then
    { res := .ok (),
      st := { st1 with tg_chat := upsertChat st1.tg_chat id name },
      tr := [] }
  else
    { res := .error "db error", st := st1, tr := [] }

/-- AppState delete_chat: first chats_status.remove, then DELETE FROM
tg_chat, whose failure is propagated after the map removal.

Modelled from the spec: the relational schema is not under src/; per the
spec the Member records of a deleted group are deleted with the group (the
reaper must delete the group, its Member records and its StatusRegistry
entry), so the tg_chat delete cascades to the tg_user rows of the chat. -/
def delete_chat (env : Env) (st : DirState) (chatId : Int) : Outcome :=
  let st1 := { st with chats_status := removeKey st.chats_status chatId }
  if env.dbOk (.deleteChat chatId) then
    { res := .ok (),
      st := { st1 with
              tg_chat := st1.tg_chat.filter (fun c => ¬ (c.id = chatId)),
              tg_user := st1.tg_user.filter (fun u => ¬ (u.chat_id = chatId)) },
      tr := [] }
  else
    { res := .error "db error", st := st1, tr := [] }

/-- AppState migrate_chat: UPDATE tg_chat SET id = new WHERE id = old,
then chats_status.remove(old) with a context error when absent, then
chats_status.entry(new).or_insert(Idle). -/
def migrate_chat (env : Env) (st : DirState) (oldId newId : Int) : Outcome :=
  if env.dbOk (.updateChatId oldId newId) then
    let st1 := { st with
      tg_chat := st.tg_chat.map
        (fun c => if c.id = oldId then { c with id := newId } else c) }
    match lookupStatus st1.chats_status oldId with
    | none =>
      { res := .error "Tried to migrate from an unexisting status",
        st := st1, tr := [] }
    | some _ =>
      let m := removeKey st1.chats_status oldId
      { res := .ok (),
        st := { st1 with chats_status := orInsert m newId .Idle },
        tr := [] }
  else
    { res := .error "db error", st := st, tr := [] }

/-- AppState get_all_members: SELECT the tg_user rows of one chat. -/
def get_all_members (env : Env) (st : DirState) (chatId : Int) :
    Except String (List User) :=
  if env.dbOk (.selectMembers chatId) then
    .ok (st.tg_user.filter (fun u => u.chat_id = chatId))
  else .error "db error"

/-- The tg_user table after DELETE FROM tg_user WHERE id AND chat_id. -/
def deleteMemberRows (rows : List User) (userId chatId : Int) : List User :=
  rows.filter (fun u => ¬ (u.id = userId ∧ u.chat_id = chatId))

/-- AppState remove_chat_member_by_id on the table, guarded by the store
oracle. -/
def remove_chat_member_by_id (env : Env) (st : DirState)
    (chatId userId : Int) : Except String DirState :=
  if env.dbOk (.deleteMember userId chatId) then
    .ok { st with tg_user := deleteMemberRows st.tg_user userId chatId }
  else .error "db error"

/-- The per-member body of the reconciliation loop of cleanup_chat: fetch
the live member; on fetch failure log and continue; keep ordinary and
restricted members; delete the local record of every other kind, with the
delete failure propagated. -/
def cleanupLoop (env : Env) (chatId : Int) :
    List User → DirState → Outcome
  | [], st => { res := .ok (), st := st, tr := [] }
  | u :: rest, st =>
    match env.getChatMember chatId u.id with
    | .error _ => cleanupLoop env chatId rest st
    | .ok kind =>
      match kind with
      | .Restricted => cleanupLoop env chatId rest st
      | .Member => cleanupLoop env chatId rest st
      | _ =>
        match remove_chat_member_by_id env st chatId u.id with
        | .ok st2 => cleanupLoop env chatId rest st2
        | .error e => { res := .error e, st := st, tr := [] }

/-- AppState cleanup_chat: fetch the tracked members of the chat and run the
reconciliation loop over them. -/
def cleanup_chat (env : Env) (st : DirState) (chatId : Int) : Outcome :=
  match get_all_members env st chatId with
  | .error e => { res := .error e, st := st, tr := [] }
  | .ok users => cleanupLoop env chatId users st

/-- The platform removal issued for one member: unban_chat_member when the
live chat is a supergroup or a channel, kick_chat_member otherwise. -/
def banResult (env : Env) (chatId : Int) (unbanMode : Bool) (userId : Int) :
    Except String Unit :=
  if unbanMode then env.unbanMember chatId userId
  else env.kickMember chatId userId

/-- The event recording the platform removal of one member. -/
def banEvent (chatId : Int) (unbanMode : Bool) (userId : Int) : Event :=
  if unbanMode then Event.unbanCall chatId userId
  else Event.kickCall chatId userId

/-- The per-member body of the removal loop of delete_all_members: unban
when the live chat is a supergroup or a channel, kick otherwise; on success
delete the local record (delete failure propagated); on platform failure
log and continue. -/
def removalLoop (env : Env) (chatId : Int) (unbanMode : Bool) :
    List User → DirState → List Event → Outcome
  | [], st, tr => { res := .ok (), st := st, tr := tr }
  | u :: rest, st, tr =>
    let ev := banEvent chatId unbanMode u.id
    match banResult env chatId unbanMode u.id with
    | .ok _ =>
      match remove_chat_member_by_id env st chatId u.id with
      | .ok st2 => removalLoop env chatId unbanMode rest st2 (tr ++ [ev])
      | .error e => { res := .error e, st := st, tr := tr ++ [ev] }
    | .error _ => removalLoop env chatId unbanMode rest st (tr ++ [ev])

/-- AppState delete_all_members: set the status to InProgress, fetch the
live chat, run cleanup_chat, fetch the remaining members, run the removal
loop, and finally set the status back to Idle; every propagated failure
leaves the status as it was at that point. -/
def delete_all_members (env : Env) (st : DirState) (chatId : Int) : Outcome :=
  match set_chat_status st.chats_status chatId .InProgress with
  | .error e => { res := .error e, st := st, tr := [.sweepStart chatId] }
  | .ok m1 =>
  let st1 := { st with chats_status := m1 }
  match env.getChat chatId with
  | .error e => { res := .error e, st := st1, tr := [.sweepStart chatId] }
  | .ok chat =>
  match cleanup_chat env st1 chatId with
  | { res := .error e, st := st2, tr := tr2 } =>
    { res := .error e, st := st2, tr := .sweepStart chatId :: tr2 }
  | { res := .ok _, st := st2, tr := tr2 } =>
  match get_all_members env st2 chatId with
  | .error e => { res := .error e, st := st2, tr := .sweepStart chatId :: tr2 }
  | .ok users =>
  let unbanMode := chat.kind == ChatKind.supergroup || chat.kind == ChatKind.channel
  match removalLoop env chatId unbanMode users st2 (.sweepStart chatId :: tr2) with
  | { res := .error e, st := st3, tr := tr3 } =>
    { res := .error e, st := st3, tr := tr3 }
  | { res := .ok _, st := st3, tr := tr3 } =>
  match set_chat_status st3.chats_status chatId .Idle with
  | .error e => { res := .error e, st := st3, tr := tr3 }
  | .ok m2 => { res := .ok (), st := { st3 with chats_status := m2 }, tr := tr3 }

/-- The claim loop of clear_chats: walk the requested ids; an unknown id
aborts with the context error, keeping the transitions already made; an
Idle or Error id is set to Queued and collected; a Queued or InProgress id
is skipped. -/
def claimPhase :
    List Int → List (Int × ChatCleaningStatus) → List Int →
    Except String Unit × List (Int × ChatCleaningStatus) × List Int
  | [], m, acc => (.ok (), m, acc)
  | c :: rest, m, acc =>
    match lookupStatus m c with
    | none => (.error "chat not found", m, acc)
    | some .Idle => claimPhase rest (setStatus m c .Queued) (acc ++ [c])
    | some (.Error _) => claimPhase rest (setStatus m c .Queued) (acc ++ [c])
    | some .Queued => claimPhase rest m acc
    | some .InProgress => claimPhase rest m acc

/-- The sweep loop of clear_chats: run delete_all_members sequentially over
the claimed ids; a failed sweep sets the status of that id to Error with
the failure text, and a failure of that set aborts the whole call. -/
def sweepPhase (env : Env) :
    List Int → DirState → List Event → Outcome
  | [], st, tr => { res := .ok (), st := st, tr := tr }
  | c :: rest, st, tr =>
    match delete_all_members env st c with
    | { res := .ok _, st := st2, tr := tr2 } =>
      sweepPhase env rest st2 (tr ++ tr2)
    | { res := .error e, st := st2, tr := tr2 } =>
      match set_chat_status st2.chats_status c (.Error e) with
      | .ok m => sweepPhase env rest { st2 with chats_status := m } (tr ++ tr2)
      | .error e2 => { res := .error e2, st := st2, tr := tr ++ tr2 }

/-- AppState clear_chats: the claim loop followed by the sequential sweep
loop over the claimed ids. -/
def clear_chats (env : Env) (st : DirState) (chats : List Int) : Outcome :=
  match claimPhase chats st.chats_status [] with
  | (.error e, m, _) =>
    { res := .error e, st := { st with chats_status := m }, tr := [] }
  | (.ok _, m, toClean) =>
    sweepPhase env toClean { st with chats_status := m } []

/-- Value of one character of the standard base64 alphabet. -/
def b64Val (c : Char) : Option Nat :=
  if 'A' ≤ c ∧ c ≤ 'Z' then some (c.toNat - 65)
  else if 'a' ≤ c ∧ c ≤ 'z' then some (c.toNat - 97 + 26)
  else if '0' ≤ c ∧ c ≤ '9' then some (c.toNat - 48 + 52)
  else if c = '+' then some 62
  else if c = '/' then some 63
  else none

/-- Decode one full base64 quantum of four alphabet characters into three
bytes. -/
def b64Quad (a b c d : Char) : Option (List Nat) := do
  let va ← b64Val a
  let vb ← b64Val b
  let vc ← b64Val c
  let vd ← b64Val d
  some [va * 4 + vb / 16, (vb % 16) * 16 + vc / 4, (vc % 4) * 64 + vd]

/-- Decode the final base64 quantum, allowing canonical padding with zero
trailing bits, as the rust base64 STANDARD engine requires. -/
def b64Final (a b c d : Char) : Option (List Nat) :=
  if d = '=' then
    if c = '=' then do
      let va ← b64Val a
      let vb ← b64Val b
      if vb % 16 = 0 then some [va * 4 + vb / 16] else none
    else do
      let va ← b64Val a
      let vb ← b64Val b
      let vc ← b64Val c
      if vc % 4 = 0 then some [va * 4 + vb / 16, (vb % 16) * 16 + vc / 4]
      else none
  else b64Quad a b c d

/-- Decode a base64 character list four characters at a time; the input
length must be a multiple of four and padding may occur only at the end. -/
def b64Blocks : List Char → Option (List Nat)
  | [] => some []
  | a :: b :: c :: d :: [] => b64Final a b c d
  | a :: b :: c :: d :: rest => do
      let bytes ← b64Quad a b c d
      let more ← b64Blocks rest
      some (bytes ++ more)
  | _ => none

/-- base64 general_purpose STANDARD decode of one image payload, as applied
to each entry of the images column before any send is attempted. -/
def base64Decode (s : String) : Option (List Nat) :=
  b64Blocks s.data

/-- images.chunks(10): split the decoded images into batches of at most ten
for the media group calls. -/
def chunks10 : List α → List (List α)
  | [] => []
  | x :: rest => List.take 10 (x :: rest) :: chunks10 (List.drop 9 rest)
termination_by l => l.length
decreasing_by
  simp [List.length_drop]
  omega

/-- AppState send_media_group: the platform result is matched and only
logged, so the operation always returns Ok; the attempt is recorded. -/
def send_media_group (chatId : Int) : Except String Unit × List Event :=
  (.ok (), [.sendMediaCall chatId])

/-- AppState send_message_to_chat: the platform result is matched and only
logged, so the operation always returns Ok; the attempt is recorded. -/
def send_message_to_chat (chatId : Int) : Except String Unit × List Event :=
  (.ok (), [.sendTextCall chatId])

/-- The per-chat loop of send_message_with_images_to_chats: for each chat,
when there is at least one image, send every batch of ten as a media group,
then send the text body. -/
def sendLoop (imgs : List (List Nat)) :
    List Int → List Event → Except String Unit × List Event
  | [], tr => (.ok (), tr)
  | c :: rest, tr =>
    let trMedia :=
      if imgs.length > 0 then
        (chunks10 imgs).map (fun _ => Event.sendMediaCall c)
      else []
    sendLoop imgs rest (tr ++ trMedia ++ [Event.sendTextCall c])

/-- Decode every image payload in order, failing on the first payload that
is not valid base64, as the collect over decode results does. -/
def decodeAll : List String → Option (List (List Nat))
  | [] => some []
  | s :: rest => do
      let d ← base64Decode s
      let ds ← decodeAll rest
      some (d :: ds)

/-- AppState send_message_with_images_to_chats: decode every image payload
first, propagating a decode failure before any send; then run the send
loop, whose per-chat platform failures are swallowed. -/
def send_message_with_images_to_chats (chats : List Int) (message : String)
    (images : List String) : Except String Unit × List Event :=
  match decodeAll images with
  | none => (.error "decode error", [])
  | some imgs => sendLoop imgs chats []

/-- The message_queue table after DELETE FROM message_queue WHERE id. -/
def removeQueuedRow (rows : List QueuedMessage) (id : Int) :
    List QueuedMessage :=
  rows.filter (fun r => ¬ (r.id = id))

/-- AppState process_queued_message: parse the scheduled timestamp
(propagating the parse failure); when it is strictly before now, deliver
and then delete the queue row; otherwise leave the row untouched. -/
def process_queued_message (env : Env) (st : DirState) (msg : QueuedMessage) :
    Outcome :=
  match env.parseRfc3339 msg.datetime with
  | none => { res := .error "parse error", st := st, tr := [] }
  | some t =>
    if t < env.now then
      match send_message_with_images_to_chats msg.chats msg.message msg.images with
      | (.error e, tr) => { res := .error e, st := st, tr := tr }
      | (.ok _, tr) =>
        if env.dbOk (.deleteQueued msg.id) then
          { res := .ok (),
            st := { st with
                    message_queue := removeQueuedRow st.message_queue msg.id },
            tr := tr }
        else { res := .error "db error", st := st, tr := tr }
    else { res := .ok (), st := st, tr := [] }

/-- The row loop of message_queue_loop: a failure processing one row is
logged and the loop continues with the next row. -/
def mqLoop (env : Env) : List QueuedMessage → DirState → List Event → Outcome
  | [], st, tr => { res := .ok (), st := st, tr := tr }
  | m :: rest, st, tr =>
    let o := process_queued_message env st m
    mqLoop env rest o.st (tr ++ o.tr)

/-- AppState message_queue_loop: stream all queue rows and process each. -/
def message_queue_loop (env : Env) (st : DirState) : Outcome :=
  if env.dbOk .selectQueue then mqLoop env st.message_queue st []
  else { res := .error "db error", st := st, tr := [] }

/-- AppState new_chat_member: ignore the bot itself, fetch the live member
record (fetch failure propagated), ignore privileged members, and upsert
the tg_user row otherwise. -/
def new_chat_member (env : Env) (st : DirState) (chatId : Int)
    (member : TgUser) : Outcome :=
  match env.getMe with
  | .error e => { res := .error e, st := st, tr := [] }
  | .ok meId =>
    if member.id = meId then { res := .ok (), st := st, tr := [] }
    else
      match env.getChatMember chatId member.id with
      | .error _ => { res := .error "request error", st := st, tr := [] }
      | .ok kind =>
        if kind.is_privileged then { res := .ok (), st := st, tr := [] }
        else if env.dbOk (.insertMember member.id chatId) then
          { res := .ok (),
            st := { st with
                    tg_user := upsertUser st.tg_user member.id chatId
                      (member.username.getD "") member.full_name },
            tr := [] }
        else { res := .error "db error", st := st, tr := [] }

/-- The exact text compared against the displayed api error in the fallback
branch of the reaper. -/
def botKickedText : String :=
  "Unknown error: \"Forbidden: bot was kicked from the group chat\""

/-- The per-chat body of cleanup_deprecated_chats_loop: query the bot
membership in the chat; on the three structured eviction errors, or on any
other api error whose display equals the known eviction text, delete the
chat (a delete failure is only logged); on success or any other failure
keep the chat; a get_me failure is propagated. -/
def reapChat (env : Env) (st : DirState) (chat : Chat) :
    Except String DirState :=
  match env.getMe with
  | .error e => .error e
  | .ok meId =>
    match env.getChatMember chat.id meId with
    | .ok _ => .ok st
    | .error (.Network _) => .ok st
    | .error (.Api apiErr) =>
      match apiErr with
      | .ChatNotFound | .BotKicked | .BotKickedFromSupergroup =>
        .ok (delete_chat env st chat.id).st
      | _ =>
        if apiErr.display = botKickedText then
          .ok (delete_chat env st chat.id).st
        else .ok st

/-- The chat loop of cleanup_deprecated_chats_loop over the fetched chat
rows. -/
def reapLoop (env : Env) : List Chat → DirState → Outcome
  | [], st => { res := .ok (), st := st, tr := [] }
  | c :: rest, st =>
    match reapChat env st c with
    | .error e => { res := .error e, st := st, tr := [] }
    | .ok st2 => reapLoop env rest st2

/-- AppState cleanup_deprecated_chats_loop: fetch the chat rows and walk
them with the per-chat reap step. -/
def cleanup_deprecated_chats_loop (env : Env) (st : DirState) : Outcome :=
  if env.dbOk .selectChats then reapLoop env st.tg_chat st
  else { res := .error "db error", st := st, tr := [] }

/-! ## Helper lemmas on the status map -/

theorem lookupStatus_orInsert_self (m : List (Int × ChatCleaningStatus))
    (k : Int) (v : ChatCleaningStatus) :
    lookupStatus (orInsert m k v) k = some ((lookupStatus m k).getD v) := by
  induction m with
  | nil => simp [orInsert, lookupStatus]
  | cons p rest ih =>
    obtain ⟨k2, v2⟩ := p
    by_cases h : k = k2 <;> simp [orInsert, lookupStatus, h, ih]

theorem lookupStatus_orInsert_ne (m : List (Int × ChatCleaningStatus))
    (k x : Int) (v : ChatCleaningStatus) (h : x ≠ k) :
    lookupStatus (orInsert m k v) x = lookupStatus m x := by
  induction m with
  | nil => simp [orInsert, lookupStatus, h]
  | cons p rest ih =>
    obtain ⟨k2, v2⟩ := p
    by_cases h2 : k = k2
    · simp [orInsert, lookupStatus, h2]
    · by_cases h3 : x = k2 <;> simp [orInsert, lookupStatus, h2, h3, ih]

theorem lookupStatus_setStatus_self (m : List (Int × ChatCleaningStatus))
    (k : Int) (v : ChatCleaningStatus)
    (h : (lookupStatus m k).isSome) :
    lookupStatus (setStatus m k v) k = some v := by
  induction m with
  | nil => simp [lookupStatus] at h
  | cons p rest ih =>
    obtain ⟨k2, v2⟩ := p
    by_cases h2 : k = k2
    · simp [setStatus, lookupStatus, h2]
    · simp [lookupStatus, h2] at h
      simp [setStatus, lookupStatus, h2, ih h]

theorem lookupStatus_setStatus_ne (m : List (Int × ChatCleaningStatus))
    (k x : Int) (v : ChatCleaningStatus) (h : x ≠ k) :
    lookupStatus (setStatus m k v) x = lookupStatus m x := by
  induction m with
  | nil => simp [setStatus]
  | cons p rest ih =>
    obtain ⟨k2, v2⟩ := p
    by_cases h2 : k = k2
    · subst h2
      simp [setStatus, lookupStatus, h]
    · by_cases h3 : x = k2 <;> simp [setStatus, lookupStatus, h2, h3, ih]

theorem lookupStatus_setStatus_isSome (m : List (Int × ChatCleaningStatus))
    (k x : Int) (v : ChatCleaningStatus) :
    (lookupStatus (setStatus m k v) x).isSome = (lookupStatus m x).isSome := by
  induction m with
  | nil => simp [setStatus]
  | cons p rest ih =>
    obtain ⟨k2, v2⟩ := p
    by_cases h2 : k = k2 <;> by_cases h3 : x = k2 <;>
      simp [setStatus, lookupStatus, h2, h3, ih]

theorem lookupStatus_removeKey_self (m : List (Int × ChatCleaningStatus))
    (k : Int) : lookupStatus (removeKey m k) k = none := by
  induction m with
  | nil => simp [removeKey, lookupStatus]
  | cons p rest ih =>
    obtain ⟨k2, v2⟩ := p
    by_cases h : k2 = k
    · simpa [removeKey, List.filter, h] using ih
    · have h2 : ¬ (k = k2) := fun hh => h hh.symm
      simpa [removeKey, List.filter, h, lookupStatus, h2] using ih

theorem lookupStatus_removeKey_ne (m : List (Int × ChatCleaningStatus))
    (k x : Int) (h : x ≠ k) :
    lookupStatus (removeKey m k) x = lookupStatus m x := by
  induction m with
  | nil => simp [removeKey, lookupStatus]
  | cons p rest ih =>
    obtain ⟨k2, v2⟩ := p
    by_cases h2 : k2 = k
    · subst h2
      simpa [removeKey, List.filter, lookupStatus, h] using ih
    · by_cases h3 : x = k2 <;>
        simpa [removeKey, List.filter, h2, lookupStatus, h3] using ih

theorem set_chat_status_ok (m : List (Int × ChatCleaningStatus)) (k : Int)
    (v : ChatCleaningStatus) (h : (lookupStatus m k).isSome) :
    set_chat_status m k v = .ok (setStatus m k v) := by
  cases h2 : lookupStatus m k with
  | none => simp [h2] at h
  | some s => simp [set_chat_status, h2]

theorem set_chat_status_notFound (m : List (Int × ChatCleaningStatus))
    (k : Int) (v : ChatCleaningStatus) (h : lookupStatus m k = none) :
    set_chat_status m k v = .error "Chat not found" := by
  simp [set_chat_status, h]

/-! ## Claim C2: migration of a status entry -/

theorem migrate_chat_none (env : Env) (st : DirState) (oldId newId : Int)
    (hdb : env.dbOk (.updateChatId oldId newId) = true)
    (h : lookupStatus st.chats_status oldId = none) :
    (migrate_chat env st oldId newId).res
      = .error "Tried to migrate from an unexisting status" ∧
    (migrate_chat env st oldId newId).st.chats_status = st.chats_status := by
  simp [migrate_chat, hdb, h]

/-- Claim C2, amended: with the directory update succeeding and distinct
ids, if the registry holds some status for the old id then migrate_chat
succeeds, removes the old entry, and afterwards the new id holds Idle when
it had no entry (its previous status otherwise) — the old status is
discarded rather than carried over; a second migrate on the old id then
fails with the not-found error, as does a migrate when the old id has no
entry (whose directory update still happens first). -/
theorem migrate_chat_spec (env : Env) (st : DirState) (oldId newId : Int)
    (hdb : env.dbOk (.updateChatId oldId newId) = true)
    (hne : oldId ≠ newId) :
    ((lookupStatus st.chats_status oldId).isSome →
      (migrate_chat env st oldId newId).res = .ok () ∧
      lookupStatus (migrate_chat env st oldId newId).st.chats_status oldId
        = none ∧
      lookupStatus (migrate_chat env st oldId newId).st.chats_status newId
        = some ((lookupStatus st.chats_status newId).getD .Idle) ∧
      (migrate_chat env (migrate_chat env st oldId newId).st oldId newId).res
        = .error "Tried to migrate from an unexisting status") ∧
    (lookupStatus st.chats_status oldId = none →
      (migrate_chat env st oldId newId).res
        = .error "Tried to migrate from an unexisting status" ∧
      (migrate_chat env st oldId newId).st.chats_status = st.chats_status) := by
  constructor
  · intro hsome
    cases h2 : lookupStatus st.chats_status oldId with
    | none => simp [h2] at hsome
    | some s =>
      have hold : lookupStatus
          (orInsert (removeKey st.chats_status oldId) newId .Idle) oldId
          = none := by
        rw [lookupStatus_orInsert_ne _ _ _ _ hne,
          lookupStatus_removeKey_self]
      have hcs : (migrate_chat env st oldId newId).st.chats_status
          = orInsert (removeKey st.chats_status oldId) newId .Idle := by
        simp [migrate_chat, hdb, h2]
      refine ⟨by simp [migrate_chat, hdb, h2], ?_, ?_, ?_⟩
      · rw [hcs]
        exact hold
      · rw [hcs, lookupStatus_orInsert_self,
          lookupStatus_removeKey_ne _ _ _ (Ne.symm hne)]
      · exact (migrate_chat_none env (migrate_chat env st oldId newId).st
          oldId newId hdb (by rw [hcs]; exact hold)).1
  · intro hnone
    exact migrate_chat_none env st oldId newId hdb hnone

/-- Concrete environment in which every platform call succeeds benignly and
every store statement succeeds. -/
def envAllOk : Env where
  getMe := .ok 999
  getChat := fun cid => .ok ⟨cid, some "g", .group⟩
  getChatMember := fun _ _ => .ok .Member
  kickMember := fun _ _ => .ok ()
  unbanMember := fun _ _ => .ok ()
  sendMediaGroupRes := fun _ => .ok ()
  sendMessageRes := fun _ => .ok ()
  parseRfc3339 := fun _ => some 0
  now := 5
  dbOk := fun _ => true

/-- Witness for claim C2: the amended migrate theorem applied to the
registry holding Error x under 100, migrated to 200. -/
theorem migrate_chat_spec_witness :
    (migrate_chat envAllOk ⟨[⟨100, "a"⟩], [], [], [(100, .Error "x")]⟩
      100 200).res = .ok () ∧
    lookupStatus (migrate_chat envAllOk
      ⟨[⟨100, "a"⟩], [], [], [(100, .Error "x")]⟩ 100 200).st.chats_status 100
      = none := by
  have h := migrate_chat_spec envAllOk
    ⟨[⟨100, "a"⟩], [], [], [(100, .Error "x")]⟩ 100 200 rfl (by decide)
  exact ⟨(h.1 (by decide)).1, (h.1 (by decide)).2.1⟩

/-- The state of the worked spec example for migration: a registry holding
Error x under group 100. -/
def stMig : DirState := ⟨[⟨100, "a"⟩], [], [], [(100, .Error "x")]⟩

/-- Counterexample to claim C2 as stated: migrating 100 to 200 on a
registry holding Error x under 100 yields Idle under 200, not the migrated
status Error x. -/
theorem migrate_chat_counterexample :
    lookupStatus stMig.chats_status 100 = some (.Error "x") ∧
    (migrate_chat envAllOk stMig 100 200).res = .ok () ∧
    lookupStatus (migrate_chat envAllOk stMig 100 200).st.chats_status 200
      = some .Idle ∧
    lookupStatus (migrate_chat envAllOk stMig 100 200).st.chats_status 200
      ≠ some (.Error "x") := by
  refine ⟨by decide, by decide, by decide, by decide⟩

/-! ## Claims C8 and C4: the scheduled message dispatcher -/

theorem sendLoop_sub (imgs : List (List Nat)) (chats : List Int)
    (tr : List Event) (e : Event) (he : e ∈ tr) :
    e ∈ (sendLoop imgs chats tr).2 := by
  induction chats generalizing tr with
  | nil => simpa [sendLoop] using he
  | cons c rest ih =>
    simp only [sendLoop]
    exact ih _ (by simp [he])

theorem sendLoop_ok (imgs : List (List Nat)) (chats : List Int)
    (tr : List Event) :
    (sendLoop imgs chats tr).1 = .ok () ∧
    ∀ c ∈ chats, Event.sendTextCall c ∈ (sendLoop imgs chats tr).2 := by
  induction chats generalizing tr with
  | nil => simp [sendLoop]
  | cons c rest ih =>
    refine ⟨(ih _).1, ?_⟩
    intro x hx
    rcases List.mem_cons.mp hx with h | h
    · subst h
      simp only [sendLoop]
      exact sendLoop_sub _ _ _ _ (by simp)
    · simp only [sendLoop]
      exact (ih _).2 x h

/-- Claim C8, amended: with a parseable timestamp, one dispatcher iteration
delivers the row exactly when the parsed timestamp is strictly before the
current time (a text send is attempted for every target and the row is
deleted, given the queue delete succeeds); when the timestamp equals the
current time, or is later, the row is left queued and unsent in that
iteration. -/
theorem process_queued_message_timing (env : Env) (st : DirState)
    (msg : QueuedMessage) (t : Int) (imgs : List (List Nat))
    (hp : env.parseRfc3339 msg.datetime = some t)
    (himg : decodeAll msg.images = some imgs)
    (hdb : env.dbOk (.deleteQueued msg.id) = true) :
    (t < env.now →
      (process_queued_message env st msg).res = .ok () ∧
      (process_queued_message env st msg).st.message_queue
        = removeQueuedRow st.message_queue msg.id ∧
      ∀ c ∈ msg.chats,
        Event.sendTextCall c ∈ (process_queued_message env st msg).tr) ∧
    (¬ t < env.now →
      process_queued_message env st msg = ⟨.ok (), st, []⟩) := by
  constructor
  · intro hlt
    rcases hsl : sendLoop imgs msg.chats [] with ⟨r, tr⟩
    have hok := sendLoop_ok imgs msg.chats []
    rw [hsl] at hok
    have hr : r = .ok () := hok.1
    subst hr
    have hred : process_queued_message env st msg =
        { res := .ok (),
          st := { st with
                  message_queue := removeQueuedRow st.message_queue msg.id },
          tr := tr } := by
      simp [process_queued_message, hp, hlt,
        send_message_with_images_to_chats, himg, hsl, hdb]
    refine ⟨by rw [hred], by rw [hred], ?_⟩
    intro c hc
    rw [hred]
    exact hok.2 c hc
  · intro hge
    simp [process_queued_message, hp, hge]

/-- Witness for claim C8: the timing theorem applied to a due message and
to a future message in the all-ok environment. -/
theorem process_queued_message_timing_witness :
    (process_queued_message { envAllOk with now := 5 }
      ⟨[], [], [⟨1, [7], "hi", [], "t"⟩], []⟩ ⟨1, [7], "hi", [], "t"⟩).res
      = .ok () ∧
    process_queued_message { envAllOk with now := 0 }
      ⟨[], [], [⟨1, [7], "hi", [], "t"⟩], []⟩ ⟨1, [7], "hi", [], "t"⟩
      = ⟨.ok (), ⟨[], [], [⟨1, [7], "hi", [], "t"⟩], []⟩, []⟩ := by
  constructor
  · exact ((process_queued_message_timing { envAllOk with now := 5 }
      ⟨[], [], [⟨1, [7], "hi", [], "t"⟩], []⟩ ⟨1, [7], "hi", [], "t"⟩ 0 []
      rfl rfl rfl).1 (by decide)).1
  · exact (process_queued_message_timing { envAllOk with now := 0 }
      ⟨[], [], [⟨1, [7], "hi", [], "t"⟩], []⟩ ⟨1, [7], "hi", [], "t"⟩ 0 []
      rfl rfl rfl).2 (by decide)

/-- The boundary environment: the scheduled timestamp parses to exactly the
current time. -/
def envBoundary : Env := { envAllOk with parseRfc3339 := fun _ => some 5, now := 5 }

/-- The boundary queue row. -/
def msgBoundary : QueuedMessage := ⟨1, [7], "hi", [], "t"⟩

/-- The state holding only the boundary queue row. -/
def stBoundary : DirState := ⟨[], [], [msgBoundary], []⟩

/-- Counterexample to claim C8 as stated: a row whose scheduled timestamp
equals the current time is not delivered in that iteration; the dispatcher
compares with strict less-than, so the row stays queued, unsent. -/
theorem process_queued_message_counterexample :
    envBoundary.parseRfc3339 msgBoundary.datetime = some envBoundary.now ∧
    process_queued_message envBoundary stBoundary msgBoundary
      = ⟨.ok (), stBoundary, []⟩ := by
  refine ⟨by decide, by decide⟩

/-- Claim C4, amended: a due row whose payloads decode is deleted after the
delivery attempt regardless of the per-target platform send results, which
the dispatcher does not even consult (given the queue delete succeeds); a
row survives an iteration without a delivery attempt in exactly two cases,
a timestamp parse failure or an image payload base64 decode failure, the
decode happening before any send. -/
theorem process_queued_message_error_cases (env : Env) (st : DirState)
    (msg : QueuedMessage) :
    (env.parseRfc3339 msg.datetime = none →
      process_queued_message env st msg = ⟨.error "parse error", st, []⟩) ∧
    (∀ t : Int, env.parseRfc3339 msg.datetime = some t → t < env.now →
      decodeAll msg.images = none →
      process_queued_message env st msg = ⟨.error "decode error", st, []⟩) ∧
    (∀ t : Int, ∀ imgs : List (List Nat),
      env.parseRfc3339 msg.datetime = some t → t < env.now →
      decodeAll msg.images = some imgs →
      env.dbOk (.deleteQueued msg.id) = true →
      (process_queued_message env st msg).res = .ok () ∧
      (process_queued_message env st msg).st.message_queue
        = removeQueuedRow st.message_queue msg.id) ∧
    (∀ env2 : Env, env2.parseRfc3339 = env.parseRfc3339 →
      env2.now = env.now → env2.dbOk = env.dbOk →
      process_queued_message env2 st msg = process_queued_message env st msg) := by
  refine ⟨?_, ?_, ?_, ?_⟩
  · intro hp
    simp [process_queued_message, hp]
  · intro t hp hlt hbad
    simp [process_queued_message, hp, hlt,
      send_message_with_images_to_chats, hbad]
  · intro t imgs hp hlt himg hdb
    rcases hsl : sendLoop imgs msg.chats [] with ⟨r, tr⟩
    have hok := sendLoop_ok imgs msg.chats []
    rw [hsl] at hok
    have hr : r = .ok () := hok.1
    subst hr
    constructor <;>
      simp [process_queued_message, hp, hlt,
        send_message_with_images_to_chats, himg, hsl, hdb]
  · intro env2 h1 h2 h3
    simp only [process_queued_message, h1, h2, h3]

/-- Witness for claim C4: the error case theorem applied to a parse
failure, and to a due deliverable message whose row is deleted. -/
theorem process_queued_message_error_cases_witness :
    process_queued_message { envAllOk with parseRfc3339 := fun _ => none }
      stBoundary msgBoundary = ⟨.error "parse error", stBoundary, []⟩ ∧
    (process_queued_message envAllOk stBoundary msgBoundary).st.message_queue
      = [] := by
  constructor
  · exact (process_queued_message_error_cases
      { envAllOk with parseRfc3339 := fun _ => none } stBoundary
      msgBoundary).1 rfl
  · have h := ((process_queued_message_error_cases envAllOk stBoundary
      msgBoundary).2.2.1 0 [] rfl (by decide) rfl rfl).2
    rw [h]
    decide

/-- The environment under which the bad payload row is due: the timestamp
parses, but the single image payload is not valid base64. -/
def msgBadImg : QueuedMessage := ⟨2, [7], "hi", ["!!!"], "t"⟩

/-- The state holding only the bad payload row. -/
def stBadImg : DirState := ⟨[], [], [msgBadImg], []⟩

/-- Counterexample to claim C4 as stated: a due row with an undecodable
image payload survives the iteration without any delivery attempt even
though its timestamp parsed, so parse failure is not the only such case. -/
theorem process_queued_message_decode_counterexample :
    envAllOk.parseRfc3339 msgBadImg.datetime = some 0 ∧
    process_queued_message envAllOk stBadImg msgBadImg
      = ⟨.error "decode error", stBadImg, []⟩ := by
  refine ⟨by decide, by decide⟩

/-! ## Claim C1: the lockstep invariant of the registry and the directory -/

/-- The lockstep invariant: a chats_status entry exists for an id exactly
when a tg_chat row with that id exists. -/
def lockstep (st : DirState) : Prop :=
  ∀ id : Int, (lookupStatus st.chats_status id).isSome = true ↔
    ∃ c ∈ st.tg_chat, c.id = id

theorem isSome_orInsert (m : List (Int × ChatCleaningStatus)) (k x : Int)
    (v : ChatCleaningStatus) :
    (lookupStatus (orInsert m k v) x).isSome = true ↔
      (x = k ∨ (lookupStatus m x).isSome = true) := by
  by_cases h : x = k
  · subst h
    rw [lookupStatus_orInsert_self]
    simp
  · rw [lookupStatus_orInsert_ne _ _ _ _ h]
    simp [h]

theorem isSome_removeKey (m : List (Int × ChatCleaningStatus)) (k x : Int) :
    (lookupStatus (removeKey m k) x).isSome = true ↔
      (¬ x = k ∧ (lookupStatus m x).isSome = true) := by
  by_cases h : x = k
  · subst h
    simp [lookupStatus_removeKey_self]
  · rw [lookupStatus_removeKey_ne _ _ _ h]
    simp [h]

theorem exists_upsertChat (rows : List Chat) (id : Int) (name : String)
    (x : Int) :
    (∃ c ∈ upsertChat rows id name, c.id = x) ↔
      (x = id ∨ ∃ c ∈ rows, c.id = x) := by
  induction rows with
  | nil => simp [upsertChat, eq_comm]
  | cons c rest ih =>
    by_cases h : c.id = id
    · simp only [upsertChat, h, if_true, List.mem_cons]
      constructor
      · rintro ⟨c2, hc2 | hc2, hcx⟩
        · refine Or.inl ?_
          rw [← hcx, hc2]
        · exact Or.inr ⟨c2, Or.inr hc2, hcx⟩
      · rintro (hx | ⟨c2, hc2 | hc2, hcx⟩)
        · exact ⟨⟨id, name⟩, Or.inl rfl, hx.symm⟩
        · refine ⟨⟨id, name⟩, Or.inl rfl, ?_⟩
          rw [← hcx, hc2, h]
        · exact ⟨c2, Or.inr hc2, hcx⟩
    · simp only [upsertChat, h, if_false, List.mem_cons]
      constructor
      · rintro ⟨c2, hc2 | hc2, hcx⟩
        · exact Or.inr ⟨c2, Or.inl hc2, hcx⟩
        · rcases ih.mp ⟨c2, hc2, hcx⟩ with hx | ⟨c3, hc3, hcx3⟩
          · exact Or.inl hx
          · exact Or.inr ⟨c3, Or.inr hc3, hcx3⟩
      · rintro (hx | ⟨c2, hc2 | hc2, hcx⟩)
        · rcases ih.mpr (Or.inl hx) with ⟨c2, hc2, hcx⟩
          exact ⟨c2, Or.inr hc2, hcx⟩
        · exact ⟨c2, Or.inl hc2, hcx⟩
        · rcases ih.mpr (Or.inr ⟨c2, hc2, hcx⟩) with ⟨c3, hc3, hcx3⟩
          exact ⟨c3, Or.inr hc3, hcx3⟩

theorem exists_filterChat (rows : List Chat) (k x : Int) :
    (∃ c ∈ rows.filter (fun c => ¬ (c.id = k)), c.id = x) ↔
      (¬ x = k ∧ ∃ c ∈ rows, c.id = x) := by
  simp only [List.mem_filter, decide_eq_true_eq]
  constructor
  · rintro ⟨c, ⟨hc, hck⟩, hcx⟩
    exact ⟨by rw [← hcx]; exact hck, ⟨c, hc, hcx⟩⟩
  · rintro ⟨hxk, c, hc, hcx⟩
    exact ⟨c, ⟨hc, by rw [hcx]; exact hxk⟩, hcx⟩

/-- Claim C1, amended: each of the three mutating operations preserves the
lockstep invariant when it completes successfully; when one returns an
error part-way through, the invariant can be violated (new_chat inserts
the status entry before the directory write, delete_chat removes it before
the directory delete). -/
theorem lockstep_preserved (env : Env) (st : DirState) (hls : lockstep st) :
    (∀ chat : TgChat, (new_chat env st chat).res = .ok () →
      lockstep (new_chat env st chat).st) ∧
    (∀ chatId : Int, (delete_chat env st chatId).res = .ok () →
      lockstep (delete_chat env st chatId).st) ∧
    (∀ oldId newId : Int, (migrate_chat env st oldId newId).res = .ok () →
      lockstep (migrate_chat env st oldId newId).st) := by
  refine ⟨?_, ?_, ?_⟩
  · intro chat hok
    by_cases hdb : env.dbOk (.insertChat chat.id) = true
    · have hst : (new_chat env st chat).st =
          { st with
            chats_status := orInsert st.chats_status chat.id .Idle,
            tg_chat := upsertChat st.tg_chat chat.id (chat.title.getD "") } := by
        simp [new_chat, hdb]
      intro x
      rw [hst]
      simp only
      rw [isSome_orInsert, exists_upsertChat]
      exact or_congr Iff.rfl (hls x)
    · simp [new_chat, hdb] at hok
  · intro chatId hok
    by_cases hdb : env.dbOk (.deleteChat chatId) = true
    · have hst : (delete_chat env st chatId).st =
          { st with
            chats_status := removeKey st.chats_status chatId,
            tg_chat := st.tg_chat.filter (fun c => ¬ (c.id = chatId)),
            tg_user := st.tg_user.filter (fun u => ¬ (u.chat_id = chatId)) } := by
        simp [delete_chat, hdb]
      intro x
      rw [hst]
      simp only
      rw [isSome_removeKey, exists_filterChat]
      exact and_congr Iff.rfl (hls x)
    · simp [delete_chat, hdb] at hok
  · intro oldId newId hok
    by_cases hdb : env.dbOk (.updateChatId oldId newId) = true
    · cases hlook : lookupStatus st.chats_status oldId with
      | none => simp [migrate_chat, hdb, hlook] at hok
      | some s =>
        have hst : (migrate_chat env st oldId newId).st =
            { st with
              tg_chat := st.tg_chat.map
                (fun c => if c.id = oldId then { c with id := newId } else c),
              chats_status :=
                orInsert (removeKey st.chats_status oldId) newId .Idle } := by
          simp [migrate_chat, hdb, hlook]
        intro x
        rw [hst]
        simp only
        rw [isSome_orInsert, isSome_removeKey]
        constructor
        · rintro (hx | ⟨hxo, hsome⟩)
          · obtain ⟨c, hc, hcid⟩ := (hls oldId).mp (by simp [hlook])
            refine ⟨{ c with id := newId }, ?_, hx.symm⟩
            rw [List.mem_map]
            exact ⟨c, hc, by simp [hcid]⟩
          · obtain ⟨c, hc, hcid⟩ := (hls x).mp hsome
            refine ⟨c, ?_, hcid⟩
            rw [List.mem_map]
            refine ⟨c, hc, ?_⟩
            have : ¬ (c.id = oldId) := by rw [hcid]; exact hxo
            simp [this]
        · rintro ⟨c2, hc2, hcx⟩
          rw [List.mem_map] at hc2
          obtain ⟨a, ha, hfa⟩ := hc2
          by_cases hao : a.id = oldId
          · simp only [hao, if_true] at hfa
            rw [← hfa] at hcx
            exact Or.inl hcx.symm
          · simp only [hao, if_false] at hfa
            subst hfa
            refine Or.inr ⟨by rw [← hcx]; exact hao, ?_⟩
            exact (hls x).mpr ⟨a, ha, hcx⟩
    · simp [migrate_chat, hdb] at hok

/-- Witness for claim C1: lockstep preservation applied to new_chat of chat
5 on the empty state in the all-ok environment. -/
theorem lockstep_preserved_witness :
    lockstep (new_chat envAllOk ⟨[], [], [], []⟩ ⟨5, some "g", .group⟩).st := by
  have hls : lockstep (⟨[], [], [], []⟩ : DirState) := by
    intro x
    simp [lookupStatus]
  exact (lockstep_preserved envAllOk ⟨[], [], [], []⟩ hls).1
    ⟨5, some "g", .group⟩ (by decide)

/-- The environment in which every store statement fails. -/
def envDbFail : Env := { envAllOk with dbOk := fun _ => false }

/-- Counterexample to claim C1 as stated: new_chat on the empty state with
a failing directory insert returns an error after having inserted the
status entry, so a registry entry exists for group 5 while no directory
record does — the stores are not in lockstep on this error path. -/
theorem lockstep_counterexample :
    (new_chat envDbFail ⟨[], [], [], []⟩ ⟨5, some "g", .group⟩).res
      = .error "db error" ∧
    lookupStatus
      (new_chat envDbFail ⟨[], [], [], []⟩ ⟨5, some "g", .group⟩).st.chats_status
      5 = some .Idle ∧
    (new_chat envDbFail ⟨[], [], [], []⟩ ⟨5, some "g", .group⟩).st.tg_chat
      = [] ∧
    ¬ lockstep (new_chat envDbFail ⟨[], [], [], []⟩ ⟨5, some "g", .group⟩).st := by
  refine ⟨by decide, by decide, by decide, ?_⟩
  intro h
  have h5 := (h 5).mp (by decide)
  have ht : (new_chat envDbFail ⟨[], [], [], []⟩ ⟨5, some "g", .group⟩).st.tg_chat
      = [] := by decide
  rw [ht] at h5
  simp at h5

/-! ## Claim C5: the reaper deletes exactly on the eviction categories -/

/-- Claim C5: when the membership probe of the reaper fails with one of the
closed set of bot-no-longer-present categories (chat not found, bot kicked,
bot kicked from a supergroup, or any api error whose display equals the
known eviction text), the per-chat reap step deletes the directory record,
the Member records of the chat and its status entry; on any other api
failure, on a transport failure, or on a successful probe it deletes
nothing, and a get_me failure propagates without deleting anything. -/
theorem reapChat_spec (env : Env) (st : DirState) (chat : Chat) (me : Int)
    (hme : env.getMe = .ok me)
    (hdb : env.dbOk (.deleteChat chat.id) = true) :
    (∀ e : ApiError,
      env.getChatMember chat.id me = .error (.Api e) →
      (e = .ChatNotFound ∨ e = .BotKicked ∨ e = .BotKickedFromSupergroup ∨
        e.display = botKickedText) →
      reapChat env st chat = .ok
        { st with
          chats_status := removeKey st.chats_status chat.id,
          tg_chat := st.tg_chat.filter (fun c => ¬ (c.id = chat.id)),
          tg_user := st.tg_user.filter (fun u => ¬ (u.chat_id = chat.id)) }) ∧
    (∀ e : ApiError,
      env.getChatMember chat.id me = .error (.Api e) →
      ¬ (e = .ChatNotFound ∨ e = .BotKicked ∨ e = .BotKickedFromSupergroup ∨
        e.display = botKickedText) →
      reapChat env st chat = .ok st) ∧
    (∀ s : String, env.getChatMember chat.id me = .error (.Network s) →
      reapChat env st chat = .ok st) ∧
    (∀ k : ChatMemberKind, env.getChatMember chat.id me = .ok k →
      reapChat env st chat = .ok st) := by
  have hdel : (delete_chat env st chat.id).st =
      { st with
        chats_status := removeKey st.chats_status chat.id,
        tg_chat := st.tg_chat.filter (fun c => ¬ (c.id = chat.id)),
        tg_user := st.tg_user.filter (fun u => ¬ (u.chat_id = chat.id)) } := by
    simp [delete_chat, hdb]
  refine ⟨?_, ?_, ?_, ?_⟩
  · intro e hmem hin
    cases e with
    | ChatNotFound => simp [reapChat, hme, hmem, hdel]
    | BotKicked => simp [reapChat, hme, hmem, hdel]
    | BotKickedFromSupergroup => simp [reapChat, hme, hmem, hdel]
    | Unknown t =>
      have ht : ApiError.display (.Unknown t) = botKickedText := by
        rcases hin with h | h | h | h <;> first | exact h | simp at h
      simp [reapChat, hme, hmem, ht, hdel]
    | OtherApi t =>
      have ht : ApiError.display (.OtherApi t) = botKickedText := by
        rcases hin with h | h | h | h <;> first | exact h | simp at h
      simp [reapChat, hme, hmem, ht, hdel]
  · intro e hmem hnot
    cases e with
    | ChatNotFound => exact absurd (Or.inl rfl) hnot
    | BotKicked => exact absurd (Or.inr (Or.inl rfl)) hnot
    | BotKickedFromSupergroup => exact absurd (Or.inr (Or.inr (Or.inl rfl))) hnot
    | Unknown t =>
      have ht : ¬ ApiError.display (.Unknown t) = botKickedText :=
        fun h => hnot (Or.inr (Or.inr (Or.inr h)))
      simp [reapChat, hme, hmem, ht]
    | OtherApi t =>
      have ht : ¬ ApiError.display (.OtherApi t) = botKickedText :=
        fun h => hnot (Or.inr (Or.inr (Or.inr h)))
      simp [reapChat, hme, hmem, ht]
  · intro s hmem
    simp [reapChat, hme, hmem]
  · intro k hmem
    simp [reapChat, hme, hmem]

/-- Witness for claim C5: the reap step applied to a probe failing with
BotKickedFromSupergroup (the chat, its member and its entry disappear) and
to one failing with a transient api error (nothing deleted). -/
theorem reapChat_spec_witness :
    reapChat
      { envAllOk with
        getChatMember := fun _ _ =>
          .error (.Api .BotKickedFromSupergroup) }
      ⟨[⟨1, "a"⟩], [⟨10, 1, "u", "n"⟩], [], [(1, .Idle)]⟩ ⟨1, "a"⟩
      = .ok ⟨[], [], [], []⟩ ∧
    reapChat
      { envAllOk with
        getChatMember := fun _ _ => .error (.Api (.OtherApi "too many requests")) }
      ⟨[⟨1, "a"⟩], [⟨10, 1, "u", "n"⟩], [], [(1, .Idle)]⟩ ⟨1, "a"⟩
      = .ok ⟨[⟨1, "a"⟩], [⟨10, 1, "u", "n"⟩], [], [(1, .Idle)]⟩ := by
  constructor
  · have h := (reapChat_spec
      { envAllOk with
        getChatMember := fun _ _ => .error (.Api .BotKickedFromSupergroup) }
      ⟨[⟨1, "a"⟩], [⟨10, 1, "u", "n"⟩], [], [(1, .Idle)]⟩ ⟨1, "a"⟩ 999
      rfl rfl).1 .BotKickedFromSupergroup rfl
      (Or.inr (Or.inr (Or.inl rfl)))
    rw [h]
    decide
  · exact (reapChat_spec
      { envAllOk with
        getChatMember := fun _ _ => .error (.Api (.OtherApi "too many requests")) }
      ⟨[⟨1, "a"⟩], [⟨10, 1, "u", "n"⟩], [], [(1, .Idle)]⟩ ⟨1, "a"⟩ 999
      rfl rfl).2.1 (.OtherApi "too many requests") rfl
      (by simp [ApiError.display, botKickedText])

/-! ## Lemmas on the sweep loops -/

theorem cleanupLoop_frame (env : Env) (chatId : Int)
    (hdb : ∀ op, env.dbOk op = true) (users : List User) :
    ∀ st : DirState,
      (cleanupLoop env chatId users st).res = .ok () ∧
      (cleanupLoop env chatId users st).tr = [] ∧
      (cleanupLoop env chatId users st).st.chats_status = st.chats_status ∧
      (cleanupLoop env chatId users st).st.tg_chat = st.tg_chat ∧
      (∀ row, row ∈ (cleanupLoop env chatId users st).st.tg_user →
        row ∈ st.tg_user) := by
  induction users with
  | nil =>
    intro st
    simp [cleanupLoop]
  | cons u rest ih =>
    intro st
    cases hk : env.getChatMember chatId u.id with
    | error e => simpa [cleanupLoop, hk] using ih st
    | ok kind =>
      have hrm : remove_chat_member_by_id env st chatId u.id =
          .ok { st with tg_user := deleteMemberRows st.tg_user u.id chatId } := by
        simp [remove_chat_member_by_id, hdb]
      cases kind
      case Member => simpa [cleanupLoop, hk] using ih st
      case Restricted => simpa [cleanupLoop, hk] using ih st
      all_goals
      · simp only [cleanupLoop, hk, hrm]
        have h := ih { st with tg_user := deleteMemberRows st.tg_user u.id chatId }
        refine ⟨h.1, h.2.1, by simpa using h.2.2.1, by simpa using h.2.2.2.1, ?_⟩
        intro row hrow
        have h2 := h.2.2.2.2 row hrow
        simp only [deleteMemberRows] at h2
        exact List.mem_of_mem_filter h2

theorem cleanupLoop_removes (env : Env) (chatId : Int)
    (hdb : ∀ op, env.dbOk op = true) (users : List User) :
    ∀ (st : DirState) (u : User), u ∈ users →
      ∀ kind, env.getChatMember chatId u.id = .ok kind →
      ¬ (kind = .Member ∨ kind = .Restricted) →
      ∀ row ∈ (cleanupLoop env chatId users st).st.tg_user,
        ¬ (row.id = u.id ∧ row.chat_id = chatId) := by
  induction users with
  | nil =>
    intro st u hu
    simp at hu
  | cons v rest ih =>
    intro st u hu kind hk hnk row hrow
    rcases List.mem_cons.mp hu with hu | hu
    · subst hu
      have hrm : remove_chat_member_by_id env st chatId u.id =
          .ok { st with tg_user := deleteMemberRows st.tg_user u.id chatId } := by
        simp [remove_chat_member_by_id, hdb]
      cases kind
      case Member => exact absurd (Or.inl rfl) hnk
      case Restricted => exact absurd (Or.inr rfl) hnk
      all_goals
      · simp only [cleanupLoop, hk, hrm] at hrow
        have hsub := (cleanupLoop_frame env chatId hdb rest _).2.2.2.2 row hrow
        simp only [deleteMemberRows, List.mem_filter, decide_eq_true_eq] at hsub
        exact hsub.2
    · cases hkv : env.getChatMember chatId v.id with
      | error e =>
        exact ih st u hu kind hk hnk row
          (by simpa [cleanupLoop, hkv] using hrow)
      | ok kindv =>
        have hrm : remove_chat_member_by_id env st chatId v.id =
            .ok { st with tg_user := deleteMemberRows st.tg_user v.id chatId } := by
          simp [remove_chat_member_by_id, hdb]
        cases kindv
        case Member =>
          exact ih st u hu kind hk hnk row
            (by simpa [cleanupLoop, hkv] using hrow)
        case Restricted =>
          exact ih st u hu kind hk hnk row
            (by simpa [cleanupLoop, hkv] using hrow)
        all_goals
        · exact ih _ u hu kind hk hnk row
            (by simpa [cleanupLoop, hkv, hrm] using hrow)

theorem removalLoop_frame (env : Env) (chatId : Int) (unbanMode : Bool)
    (hdb : ∀ op, env.dbOk op = true) (users : List User) :
    ∀ (st : DirState) (tr : List Event),
      (removalLoop env chatId unbanMode users st tr).res = .ok () ∧
      (removalLoop env chatId unbanMode users st tr).tr =
        tr ++ users.map (fun u => banEvent chatId unbanMode u.id) ∧
      (removalLoop env chatId unbanMode users st tr).st.chats_status
        = st.chats_status := by
  induction users with
  | nil =>
    intro st tr
    simp [removalLoop]
  | cons u rest ih =>
    intro st tr
    cases hb : banResult env chatId unbanMode u.id with
    | ok v =>
      have hrm : remove_chat_member_by_id env st chatId u.id =
          .ok { st with tg_user := deleteMemberRows st.tg_user u.id chatId } := by
        simp [remove_chat_member_by_id, hdb]
      simp only [removalLoop, hb, hrm]
      have h := ih { st with tg_user := deleteMemberRows st.tg_user u.id chatId }
        (tr ++ [banEvent chatId unbanMode u.id])
      exact ⟨h.1, by rw [h.2.1]; simp, by simpa using h.2.2⟩
    | error e =>
      simp only [removalLoop, hb]
      have h := ih st (tr ++ [banEvent chatId unbanMode u.id])
      exact ⟨h.1, by rw [h.2.1]; simp, h.2.2⟩

theorem removalLoop_rows (env : Env) (chatId : Int) (unbanMode : Bool)
    (hdb : ∀ op, env.dbOk op = true) (users : List User) :
    ∀ (st : DirState) (tr : List Event) (row : User),
      row ∈ (removalLoop env chatId unbanMode users st tr).st.tg_user ↔
        (row ∈ st.tg_user ∧ ∀ v ∈ users,
          banResult env chatId unbanMode v.id = .ok () →
          ¬ (row.id = v.id ∧ row.chat_id = chatId)) := by
  induction users with
  | nil =>
    intro st tr row
    simp [removalLoop]
  | cons v rest ih =>
    intro st tr row
    cases hb : banResult env chatId unbanMode v.id with
    | ok a =>
      cases a
      have hrm : remove_chat_member_by_id env st chatId v.id =
          .ok { st with tg_user := deleteMemberRows st.tg_user v.id chatId } := by
        simp [remove_chat_member_by_id, hdb]
      simp only [removalLoop, hb, hrm]
      rw [ih]
      simp only [deleteMemberRows, List.mem_filter, decide_eq_true_eq,
        List.mem_cons]
      constructor
      · rintro ⟨⟨hrow, hnv⟩, hrest⟩
        refine ⟨hrow, ?_⟩
        rintro w (hw | hw) hbw
        · rw [hw]
          exact hnv
        · exact hrest w hw hbw
      · rintro ⟨hrow, hall⟩
        exact ⟨⟨hrow, hall v (Or.inl rfl) hb⟩,
          fun w hw hbw => hall w (Or.inr hw) hbw⟩
    | error e =>
      simp only [removalLoop, hb]
      rw [ih]
      simp only [List.mem_cons]
      constructor
      · rintro ⟨hrow, hrest⟩
        refine ⟨hrow, ?_⟩
        rintro w (hw | hw) hbw
        · rw [hw] at hbw
          rw [hbw] at hb
          cases hb
        · exact hrest w hw hbw
      · rintro ⟨hrow, hall⟩
        exact ⟨hrow, fun w hw hbw => hall w (Or.inr hw) hbw⟩

/-! ## Running one full sweep -/

theorem delete_all_members_getChatErr (env : Env) (st : DirState)
    (chatId : Int)
    (hcs : (lookupStatus st.chats_status chatId).isSome = true)
    (e : String) (hchat : env.getChat chatId = .error e) :
    delete_all_members env st chatId =
      { res := .error e,
        st := { st with
                chats_status := setStatus st.chats_status chatId .InProgress },
        tr := [.sweepStart chatId] } := by
  have hscs := set_chat_status_ok st.chats_status chatId .InProgress hcs
  simp [delete_all_members, hscs, hchat]

theorem delete_all_members_run (env : Env) (st : DirState) (chatId : Int)
    (hdb : ∀ op, env.dbOk op = true)
    (hcs : (lookupStatus st.chats_status chatId).isSome = true)
    (chat : TgChat) (hchat : env.getChat chatId = .ok chat) :
    (delete_all_members env st chatId).res = .ok () ∧
    lookupStatus (delete_all_members env st chatId).st.chats_status chatId
      = some .Idle ∧
    (∀ x, ¬ x = chatId →
      lookupStatus (delete_all_members env st chatId).st.chats_status x
        = lookupStatus st.chats_status x) ∧
    (delete_all_members env st chatId).tr =
      Event.sweepStart chatId ::
        ((cleanupLoop env chatId
            (List.filter (fun u => u.chat_id = chatId)
              ({ st with
                 chats_status :=
                   setStatus st.chats_status chatId .InProgress } :
                DirState).tg_user)
            { st with
              chats_status :=
                setStatus st.chats_status chatId .InProgress }).st.tg_user.filter
          (fun u => u.chat_id = chatId)).map
          (fun u => banEvent chatId
            (chat.kind == ChatKind.supergroup || chat.kind == ChatKind.channel)
            u.id) := by
  have hscs := set_chat_status_ok st.chats_status chatId .InProgress hcs
  have hga1 : get_all_members env
      { st with chats_status := setStatus st.chats_status chatId .InProgress }
      chatId =
      .ok (List.filter (fun u => u.chat_id = chatId)
        ({ st with
           chats_status := setStatus st.chats_status chatId .InProgress } :
          DirState).tg_user) := by
    simp [get_all_members, hdb]
  rcases ho2 : cleanupLoop env chatId
      (List.filter (fun u => u.chat_id = chatId)
        ({ st with
           chats_status := setStatus st.chats_status chatId .InProgress } :
          DirState).tg_user)
      { st with chats_status := setStatus st.chats_status chatId .InProgress }
    with ⟨r2, st2, tr2⟩
  have hcf := cleanupLoop_frame env chatId hdb
    (List.filter (fun u => u.chat_id = chatId)
      ({ st with
         chats_status := setStatus st.chats_status chatId .InProgress } :
        DirState).tg_user)
    { st with chats_status := setStatus st.chats_status chatId .InProgress }
  rw [ho2] at hcf
  dsimp only at hcf
  obtain ⟨hr2, htr2, hm2, -, -⟩ := hcf
  subst hr2
  subst htr2
  have hcc : cleanup_chat env
      { st with chats_status := setStatus st.chats_status chatId .InProgress }
      chatId = ⟨.ok (), st2, []⟩ := by
    simp only [cleanup_chat, hga1, ho2]
  have hga2 : get_all_members env st2 chatId =
      .ok (st2.tg_user.filter (fun u => u.chat_id = chatId)) := by
    simp [get_all_members, hdb]
  rcases ho3 : removalLoop env chatId
      (chat.kind == ChatKind.supergroup || chat.kind == ChatKind.channel)
      (st2.tg_user.filter (fun u => u.chat_id = chatId)) st2
      [Event.sweepStart chatId]
    with ⟨r3, st3, tr3⟩
  have hrf := removalLoop_frame env chatId
    (chat.kind == ChatKind.supergroup || chat.kind == ChatKind.channel) hdb
    (st2.tg_user.filter (fun u => u.chat_id = chatId)) st2
    [Event.sweepStart chatId]
  rw [ho3] at hrf
  dsimp only at hrf
  obtain ⟨hr3, htr3, hm3⟩ := hrf
  subst hr3
  have hsome3 : (lookupStatus st3.chats_status chatId).isSome = true := by
    rw [hm3, hm2]
    simpa [lookupStatus_setStatus_isSome] using hcs
  have hset2 := set_chat_status_ok st3.chats_status chatId .Idle hsome3
  have hdam : delete_all_members env st chatId =
      { res := .ok (),
        st := { st3 with
                chats_status := setStatus st3.chats_status chatId .Idle },
        tr := tr3 } := by
    simp only [delete_all_members, hscs, hchat, hcc, hga2, ho3, hset2]
  refine ⟨by rw [hdam], ?_, ?_, ?_⟩
  · rw [hdam]
    exact lookupStatus_setStatus_self st3.chats_status chatId .Idle hsome3
  · intro x hx
    rw [hdam]
    try dsimp only
    rw [lookupStatus_setStatus_ne _ _ _ _ hx, hm3, hm2]
    try dsimp only
    rw [lookupStatus_setStatus_ne _ _ _ _ hx]
  · rw [hdam]
    try dsimp only
    rw [htr3]
    rfl

/-! ## Claim C9: the member directory never keeps privileged accounts -/

/-- Claim C9: new_chat_member checks the live role and does not insert a
row for a privileged member; the reconciliation pass deletes the local
record of every tracked member whose live role is no longer ordinary
member or restricted, performs no platform removal (its trace is empty)
and succeeds when the store succeeds. -/
theorem member_directory_privilege (env : Env) (st : DirState) (chatId : Int)
    (hdb : ∀ op, env.dbOk op = true) :
    (∀ (member : TgUser) (me : Int) (kind : ChatMemberKind),
      env.getMe = .ok me → ¬ member.id = me →
      env.getChatMember chatId member.id = .ok kind →
      kind.is_privileged = true →
      new_chat_member env st chatId member = ⟨.ok (), st, []⟩) ∧
    (cleanup_chat env st chatId).res = .ok () ∧
    (cleanup_chat env st chatId).tr = [] ∧
    (∀ u ∈ st.tg_user, u.chat_id = chatId →
      ∀ kind, env.getChatMember chatId u.id = .ok kind →
      ¬ (kind = .Member ∨ kind = .Restricted) →
      ∀ row ∈ (cleanup_chat env st chatId).st.tg_user,
        ¬ (row.id = u.id ∧ row.chat_id = chatId)) := by
  have hga : get_all_members env st chatId =
      .ok (st.tg_user.filter (fun u => u.chat_id = chatId)) := by
    simp [get_all_members, hdb]
  have hcf := cleanupLoop_frame env chatId hdb
    (st.tg_user.filter (fun u => u.chat_id = chatId)) st
  refine ⟨?_, ?_, ?_, ?_⟩
  · intro member me kind hme hne hk hpriv
    simp [new_chat_member, hme, hne, hk, hpriv]
  · simpa [cleanup_chat, hga] using hcf.1
  · simpa [cleanup_chat, hga] using hcf.2.1
  · intro u hu huc kind hk hnk row hrow
    have hufilter : u ∈ st.tg_user.filter (fun u => u.chat_id = chatId) := by
      simp [List.mem_filter, hu, huc]
    have hrow2 : row ∈ (cleanupLoop env chatId
        (st.tg_user.filter (fun u => u.chat_id = chatId)) st).st.tg_user := by
      simpa [cleanup_chat, hga] using hrow
    exact cleanupLoop_removes env chatId hdb _ st u hufilter kind hk hnk
      row hrow2

/-- Witness for claim C9: an administrator joining is not inserted, and a
tracked member found to be the owner is dropped by the reconciliation
pass. -/
theorem member_directory_privilege_witness :
    new_chat_member
      { envAllOk with getChatMember := fun _ _ => .ok .Administrator }
      ⟨[], [⟨10, 1, "u", "n"⟩], [], []⟩ 1 ⟨50, some "u2", "name2"⟩
      = ⟨.ok (), ⟨[], [⟨10, 1, "u", "n"⟩], [], []⟩, []⟩ ∧
    (∀ row ∈ (cleanup_chat
        { envAllOk with getChatMember := fun _ _ => .ok .Owner }
        ⟨[], [⟨10, 1, "u", "n"⟩], [], []⟩ 1).st.tg_user,
      ¬ (row.id = 10 ∧ row.chat_id = 1)) := by
  constructor
  · exact (member_directory_privilege
      { envAllOk with getChatMember := fun _ _ => .ok .Administrator }
      ⟨[], [⟨10, 1, "u", "n"⟩], [], []⟩ 1 (fun _ => rfl)).1
      ⟨50, some "u2", "name2"⟩ 999 .Administrator rfl (by decide) rfl rfl
  · exact (member_directory_privilege
      { envAllOk with getChatMember := fun _ _ => .ok .Owner }
      ⟨[], [⟨10, 1, "u", "n"⟩], [], []⟩ 1 (fun _ => rfl)).2.2.2
      ⟨10, 1, "u", "n"⟩ (by decide) rfl .Owner rfl (by decide)

/-! ## Claim C7: the removal pass -/

/-- Claim C7: in the removal pass, every member gets exactly one platform
removal attempt, in order, using unban semantics exactly when the live
chat is a supergroup or a channel and kick semantics otherwise (visible in
the sweep trace); a successful platform removal deletes the local record,
a failed one leaves the record and the loop continues with the remaining
members; per-member platform failures never fail the pass (store
operations assumed to succeed). -/
theorem removal_pass_spec (env : Env) (chatId : Int) (unbanMode : Bool)
    (users : List User) (st : DirState) (tr : List Event)
    (hdb : ∀ op, env.dbOk op = true) :
    (removalLoop env chatId unbanMode users st tr).res = .ok () ∧
    (removalLoop env chatId unbanMode users st tr).tr =
      tr ++ users.map (fun u => banEvent chatId unbanMode u.id) ∧
    (∀ u ∈ users, banResult env chatId unbanMode u.id = .ok () →
      ∀ row ∈ (removalLoop env chatId unbanMode users st tr).st.tg_user,
        ¬ (row.id = u.id ∧ row.chat_id = chatId)) ∧
    (∀ row ∈ st.tg_user,
      (∀ v ∈ users, banResult env chatId unbanMode v.id = .ok () →
        ¬ (row.id = v.id ∧ row.chat_id = chatId)) →
      row ∈ (removalLoop env chatId unbanMode users st tr).st.tg_user) ∧
    (∀ chat : TgChat, env.getChat chatId = .ok chat →
      (lookupStatus st.chats_status chatId).isSome = true →
      (delete_all_members env st chatId).tr =
        Event.sweepStart chatId ::
          ((cleanupLoop env chatId
              (List.filter (fun u => u.chat_id = chatId)
                ({ st with
                   chats_status :=
                     setStatus st.chats_status chatId .InProgress } :
                  DirState).tg_user)
              { st with
                chats_status :=
                  setStatus st.chats_status chatId .InProgress }).st.tg_user.filter
            (fun u => u.chat_id = chatId)).map
            (fun u => banEvent chatId
              (chat.kind == ChatKind.supergroup ||
                chat.kind == ChatKind.channel) u.id)) := by
  have hfr := removalLoop_frame env chatId unbanMode hdb users st tr
  refine ⟨hfr.1, hfr.2.1, ?_, ?_, ?_⟩
  · intro u hu hbu row hrow
    have h := (removalLoop_rows env chatId unbanMode hdb users st tr row).mp hrow
    exact h.2 u hu hbu
  · intro row hrow hall
    exact (removalLoop_rows env chatId unbanMode hdb users st tr row).mpr
      ⟨hrow, hall⟩
  · intro chat hchat hcs
    exact (delete_all_members_run env st chatId hdb hcs chat hchat).2.2.2

/-- The platform environment of the removal pass witness: kicking member 10
fails, kicking member 11 succeeds. -/
def envC7 : Env :=
  { envAllOk with
    kickMember := fun _ uid => if uid = 10 then .error "flaky" else .ok () }

/-- The member rows of the removal pass witness. -/
def usersC7 : List User := [⟨10, 1, "a", "b"⟩, ⟨11, 1, "c", "d"⟩]

/-- The state of the removal pass witness. -/
def stC7 : DirState := ⟨[⟨1, "a"⟩], usersC7, [], [(1, .InProgress)]⟩

/-- Witness for claim C7: over one failing and one succeeding member the
pass succeeds, attempts both kicks in order, keeps the failing member and
deletes the succeeding one. -/
theorem removal_pass_spec_witness :
    (removalLoop envC7 1 false usersC7 stC7 []).res = .ok () ∧
    (removalLoop envC7 1 false usersC7 stC7 []).tr =
      [.kickCall 1 10, .kickCall 1 11] ∧
    (∀ row ∈ (removalLoop envC7 1 false usersC7 stC7 []).st.tg_user,
      ¬ (row.id = 11 ∧ row.chat_id = 1)) ∧
    (⟨10, 1, "a", "b"⟩ : User) ∈
      (removalLoop envC7 1 false usersC7 stC7 []).st.tg_user := by
  have h := removal_pass_spec envC7 1 false usersC7 stC7 [] (fun _ => rfl)
  refine ⟨h.1, ?_, ?_, ?_⟩
  · rw [h.2.1]
    decide
  · exact h.2.2.1 ⟨11, 1, "c", "d"⟩ (by decide) (by decide)
  · exact h.2.2.2.1 ⟨10, 1, "a", "b"⟩ (by decide) (by decide)

/-! ## Claim C3: when a sweep ends Idle and when it ends Error -/

/-- Claim C3, amended: with every store statement succeeding and the group
claimed from Idle, a sweep whose live chat fetch succeeds ends with the
status back at Idle no matter how many per-member platform removals
failed, and a sweep whose live chat fetch fails ends with the status at
Error carrying that failure; when a store statement fails mid-sweep the
sweep can also abort and end in Error, so step 2 is the only Error source
only under the store-success assumption. -/
theorem sweep_error_policy (env : Env) (st : DirState) (chatId : Int)
    (hdb : ∀ op, env.dbOk op = true)
    (hstat : lookupStatus st.chats_status chatId = some .Idle) :
    (∀ chat : TgChat, env.getChat chatId = .ok chat →
      (delete_all_members env st chatId).res = .ok () ∧
      lookupStatus (delete_all_members env st chatId).st.chats_status chatId
        = some .Idle ∧
      lookupStatus (clear_chats env st [chatId]).st.chats_status chatId
        = some .Idle) ∧
    (∀ e : String, env.getChat chatId = .error e →
      (delete_all_members env st chatId).res = .error e ∧
      lookupStatus (clear_chats env st [chatId]).st.chats_status chatId
        = some (.Error e)) := by
  have hsome : (lookupStatus st.chats_status chatId).isSome = true := by
    simp [hstat]
  have hclaim : claimPhase [chatId] st.chats_status [] =
      (.ok (), setStatus st.chats_status chatId .Queued, [chatId]) := by
    simp [claimPhase, hstat]
  have hsomeQ :
      (lookupStatus (setStatus st.chats_status chatId .Queued) chatId).isSome
        = true := by
    rw [lookupStatus_setStatus_isSome]
    exact hsome
  constructor
  · intro chat hchat
    have hrun := delete_all_members_run env st chatId hdb hsome chat hchat
    have hrunQ := delete_all_members_run env
      { st with chats_status := setStatus st.chats_status chatId .Queued }
      chatId hdb (by simpa using hsomeQ) chat hchat
    refine ⟨hrun.1, hrun.2.1, ?_⟩
    rcases hd : delete_all_members env
        { st with chats_status := setStatus st.chats_status chatId .Queued }
        chatId with ⟨rd, std, trd⟩
    rw [hd] at hrunQ
    have hrd : rd = .ok () := hrunQ.1
    subst hrd
    have hcc : clear_chats env st [chatId] =
        { res := .ok (), st := std, tr := [] ++ trd } := by
      simp [clear_chats, hclaim, sweepPhase, hd]
    rw [hcc]
    exact hrunQ.2.1
  · intro e hchat
    have herr1 : (delete_all_members env st chatId).res = .error e := by
      rw [delete_all_members_getChatErr env st chatId hsome e hchat]
    have herrQ := delete_all_members_getChatErr env
      { st with chats_status := setStatus st.chats_status chatId .Queued }
      chatId (by simpa using hsomeQ) e hchat
    have hsomeQI :
        (lookupStatus
          (setStatus (setStatus st.chats_status chatId .Queued) chatId
            .InProgress) chatId).isSome = true := by
      rw [lookupStatus_setStatus_isSome]
      exact hsomeQ
    have hsetE := set_chat_status_ok
      (setStatus (setStatus st.chats_status chatId .Queued) chatId .InProgress)
      chatId (.Error e) hsomeQI
    have hcc : clear_chats env st [chatId] =
        { res := .ok (),
          st := { st with
                  chats_status :=
                    setStatus
                      (setStatus (setStatus st.chats_status chatId .Queued)
                        chatId .InProgress) chatId (.Error e) },
          tr := [] ++ [Event.sweepStart chatId] } := by
      simp [clear_chats, hclaim, sweepPhase, herrQ, hsetE]
    refine ⟨herr1, ?_⟩
    rw [hcc]
    exact lookupStatus_setStatus_self _ _ _ hsomeQI

/-- Witness for claim C3: a sweep in which the only kick fails still ends
Idle, and a sweep whose live chat fetch fails ends Error with that
reason. -/
theorem sweep_error_policy_witness :
    lookupStatus
      (clear_chats
        { envAllOk with kickMember := fun _ _ => .error "rate limited" }
        ⟨[⟨1, "a"⟩], [⟨10, 1, "u", "n"⟩], [], [(1, .Idle)]⟩
        [1]).st.chats_status 1 = some .Idle ∧
    lookupStatus
      (clear_chats { envAllOk with getChat := fun _ => .error "gone" }
        ⟨[⟨1, "a"⟩], [⟨10, 1, "u", "n"⟩], [], [(1, .Idle)]⟩
        [1]).st.chats_status 1 = some (.Error "gone") := by
  constructor
  · exact ((sweep_error_policy
      { envAllOk with kickMember := fun _ _ => .error "rate limited" }
      ⟨[⟨1, "a"⟩], [⟨10, 1, "u", "n"⟩], [], [(1, .Idle)]⟩ 1
      (fun _ => rfl) rfl).1 ⟨1, some "g", .group⟩ rfl).2.2
  · exact ((sweep_error_policy
      { envAllOk with getChat := fun _ => .error "gone" }
      ⟨[⟨1, "a"⟩], [⟨10, 1, "u", "n"⟩], [], [(1, .Idle)]⟩ 1
      (fun _ => rfl) rfl).2 "gone" rfl).2

/-- The environment of the C3 counterexample: every platform call succeeds
but the store delete of member row 10 in chat 1 fails. -/
def envDbMemberFail : Env :=
  { envAllOk with
    dbOk := fun op => if op = DbOp.deleteMember 10 1 then false else true }

/-- The state of the C3 counterexample. -/
def stC3 : DirState := ⟨[⟨1, "a"⟩], [⟨10, 1, "u", "n"⟩], [], [(1, .Idle)]⟩

/-- Counterexample to claim C3 as stated: the live chat fetch succeeds and
the single platform removal succeeds, yet the sweep ends with the group in
Error because the store delete of the removed member failed mid-sweep, so
a step 2 failure is not the only execution ending in Error. -/
theorem sweep_error_counterexample :
    envDbMemberFail.getChat 1 = .ok ⟨1, some "g", .group⟩ ∧
    envDbMemberFail.kickMember 1 10 = .ok () ∧
    lookupStatus (clear_chats envDbMemberFail stC3 [1]).st.chats_status 1
      = some (.Error "db error") := by
  refine ⟨by decide, by decide, by decide⟩

/-! ## The claim and sweep phases of clear_chats in general -/

/-- Whether a status lets the claim loop transition the id to Queued:
exactly Idle and Error are claimable. -/
def claimable : Option ChatCleaningStatus → Bool
  | some .Idle => true
  | some (.Error _) => true
  | _ => false

/-- The ids of the sweeps recorded in a trace, in order. -/
def sweepIds (tr : List Event) : List Int :=
  tr.filterMap (fun e => match e with
    | .sweepStart c => some c
    | _ => none)

theorem sweepIds_append (a b : List Event) :
    sweepIds (a ++ b) = sweepIds a ++ sweepIds b := by
  simp [sweepIds, List.filterMap_append]

theorem sweepIds_banEvents (chatId : Int) (unbanMode : Bool)
    (users : List User) :
    sweepIds (users.map (fun u => banEvent chatId unbanMode u.id)) = [] := by
  induction users with
  | nil => simp [sweepIds]
  | cons u rest ih =>
    cases unbanMode <;>
      simpa [sweepIds, banEvent, List.filterMap_cons] using ih

theorem claimPhase_run (chats : List Int) :
    ∀ (m : List (Int × ChatCleaningStatus)) (acc : List Int),
      chats.Nodup →
      (∀ c ∈ chats, (lookupStatus m c).isSome = true) →
      (claimPhase chats m acc).1 = .ok () ∧
      (claimPhase chats m acc).2.2 =
        acc ++ chats.filter (fun c => claimable (lookupStatus m c)) ∧
      (∀ x ∈ chats, claimable (lookupStatus m x) = true →
        lookupStatus (claimPhase chats m acc).2.1 x = some .Queued) ∧
      (∀ x, x ∉ chats ∨ claimable (lookupStatus m x) = false →
        lookupStatus (claimPhase chats m acc).2.1 x = lookupStatus m x) := by
  induction chats with
  | nil =>
    intro m acc _ _
    simp [claimPhase]
  | cons c rest ih =>
    intro m acc hnd hall
    have hcnotin : c ∉ rest := (List.nodup_cons.mp hnd).1
    have hndrest : rest.Nodup := (List.nodup_cons.mp hnd).2
    cases hs : lookupStatus m c with
    | none =>
      have := hall c (List.mem_cons_self c rest)
      rw [hs] at this
      cases this
    | some s =>
      by_cases hcl : claimable (some s) = true
      · have hbranch : claimPhase (c :: rest) m acc =
            claimPhase rest (setStatus m c .Queued) (acc ++ [c]) := by
          cases s <;> simp_all [claimPhase, claimable, hs]
        have hallrest : ∀ x ∈ rest,
            (lookupStatus (setStatus m c .Queued) x).isSome = true := by
          intro x hx
          rw [lookupStatus_setStatus_isSome]
          exact hall x (List.mem_cons_of_mem c hx)
        have ihr := ih (setStatus m c .Queued) (acc ++ [c]) hndrest hallrest
        have hlookeq : ∀ x ∈ rest,
            lookupStatus (setStatus m c .Queued) x = lookupStatus m x := by
          intro x hx
          exact lookupStatus_setStatus_ne m c x .Queued
            (fun h => hcnotin (h ▸ hx))
        refine ⟨by rw [hbranch]; exact ihr.1, ?_, ?_, ?_⟩
        · rw [hbranch, ihr.2.1]
          have hfeq : rest.filter
              (fun x => claimable (lookupStatus (setStatus m c .Queued) x)) =
              rest.filter (fun x => claimable (lookupStatus m x)) := by
            apply List.filter_congr
            intro x hx
            rw [hlookeq x hx]
          rw [hfeq]
          have : List.filter (fun x => claimable (lookupStatus m x)) (c :: rest)
              = c :: rest.filter (fun x => claimable (lookupStatus m x)) := by
            simp [List.filter_cons, hs, hcl]
          rw [this]
          simp
        · intro x hx hclx
          rcases List.mem_cons.mp hx with hx | hx
          · subst hx
            rw [hbranch, ihr.2.2.2 x (Or.inl hcnotin)]
            exact lookupStatus_setStatus_self m x .Queued
              (by rw [hs]; rfl)
          · rw [hbranch, ihr.2.2.1 x hx (by rw [hlookeq x hx]; exact hclx)]
        · intro x hx
          have hxc : ¬ x = c := by
            intro hxc
            subst hxc
            rcases hx with hx | hx
            · exact hx (List.mem_cons_self x rest)
            · rw [hs] at hx
              rw [hcl] at hx
              cases hx
          have hx2 : x ∉ rest ∨
              claimable (lookupStatus (setStatus m c .Queued) x) = false := by
            rcases hx with hx | hx
            · exact Or.inl (fun h => hx (List.mem_cons_of_mem c h))
            · refine Or.inr ?_
              rw [lookupStatus_setStatus_ne m c x .Queued hxc]
              exact hx
          rw [hbranch, ihr.2.2.2 x hx2,
            lookupStatus_setStatus_ne m c x .Queued hxc]
      · have hclf : claimable (some s) = false := by
          cases h2 : claimable (some s)
          · rfl
          · exact absurd h2 hcl
        have hbranch : claimPhase (c :: rest) m acc =
            claimPhase rest m acc := by
          cases s <;> simp_all [claimPhase, claimable, hs]
        have ihr := ih m acc hndrest
          (fun x hx => hall x (List.mem_cons_of_mem c hx))
        refine ⟨by rw [hbranch]; exact ihr.1, ?_, ?_, ?_⟩
        · rw [hbranch, ihr.2.1]
          have : List.filter (fun x => claimable (lookupStatus m x)) (c :: rest)
              = rest.filter (fun x => claimable (lookupStatus m x)) := by
            simp [List.filter_cons, hs, hclf]
          rw [this]
        · intro x hx hclx
          rcases List.mem_cons.mp hx with hx | hx
          · subst hx
            rw [hs] at hclx
            rw [hclx] at hclf
            cases hclf
          · rw [hbranch]
            exact ihr.2.2.1 x hx hclx
        · intro x hx
          rw [hbranch]
          apply ihr.2.2.2 x
          rcases hx with hx | hx
          · by_cases hxc : x = c
            · subst hxc
              rw [hs]
              exact Or.inr hclf
            · exact Or.inl (fun h => hx (List.mem_cons_of_mem c h))
          · exact Or.inr hx

theorem sweepIds_cons (c : Int) (l : List Event) :
    sweepIds (Event.sweepStart c :: l) = c :: sweepIds l := by
  simp [sweepIds, List.filterMap_cons]

theorem sweepPhase_run (env : Env) (hdb : ∀ op, env.dbOk op = true)
    (ids : List Int) :
    ∀ (st : DirState) (tr : List Event),
      ids.Nodup →
      (∀ c ∈ ids, (lookupStatus st.chats_status c).isSome = true) →
      (sweepPhase env ids st tr).res = .ok () ∧
      sweepIds (sweepPhase env ids st tr).tr = sweepIds tr ++ ids ∧
      (∀ c ∈ ids,
        (∀ chat : TgChat, env.getChat c = .ok chat →
          lookupStatus (sweepPhase env ids st tr).st.chats_status c
            = some .Idle) ∧
        (∀ e : String, env.getChat c = .error e →
          lookupStatus (sweepPhase env ids st tr).st.chats_status c
            = some (.Error e))) ∧
      (∀ x, x ∉ ids →
        lookupStatus (sweepPhase env ids st tr).st.chats_status x
          = lookupStatus st.chats_status x) := by
  induction ids with
  | nil =>
    intro st tr _ _
    simp [sweepPhase]
  | cons c rest ih =>
    intro st tr hnd hall
    have hcnotin : c ∉ rest := (List.nodup_cons.mp hnd).1
    have hndrest : rest.Nodup := (List.nodup_cons.mp hnd).2
    have hsome : (lookupStatus st.chats_status c).isSome = true :=
      hall c (List.mem_cons_self c rest)
    cases hg : env.getChat c with
    | ok chat =>
      have hrun := delete_all_members_run env st c hdb hsome chat hg
      rcases hd : delete_all_members env st c with ⟨rd, std, trd⟩
      rw [hd] at hrun
      have hrd : rd = .ok () := hrun.1
      subst hrd
      try dsimp only at hrun
      have hbranch : sweepPhase env (c :: rest) st tr =
          sweepPhase env rest std (tr ++ trd) := by
        simp [sweepPhase, hd]
      have hallrest : ∀ x ∈ rest,
          (lookupStatus std.chats_status x).isSome = true := by
        intro x hx
        have hxc : ¬ x = c := fun h => hcnotin (h ▸ hx)
        rw [hrun.2.2.1 x hxc]
        exact hall x (List.mem_cons_of_mem c hx)
      have ihr := ih std (tr ++ trd) hndrest hallrest
      have htrd : sweepIds trd = [c] := by
        rw [hrun.2.2.2, sweepIds_cons, sweepIds_banEvents]
      refine ⟨by rw [hbranch]; exact ihr.1, ?_, ?_, ?_⟩
      · rw [hbranch, ihr.2.1, sweepIds_append, htrd]
        simp
      · intro c2 hc2
        rcases List.mem_cons.mp hc2 with hc2 | hc2
        · subst hc2
          constructor
          · intro chat2 _
            rw [hbranch, ihr.2.2.2 c2 hcnotin]
            exact hrun.2.1
          · intro e2 he2
            rw [hg] at he2
            cases he2
        · constructor
          · intro chat2 hchat2
            rw [hbranch]
            exact (ihr.2.2.1 c2 hc2).1 chat2 hchat2
          · intro e2 he2
            rw [hbranch]
            exact (ihr.2.2.1 c2 hc2).2 e2 he2
      · intro x hx
        have hxrest : x ∉ rest := fun h => hx (List.mem_cons_of_mem c h)
        have hxc : ¬ x = c := fun h => hx (h ▸ List.mem_cons_self c rest)
        rw [hbranch, ihr.2.2.2 x hxrest, hrun.2.2.1 x hxc]
    | error e =>
      have herr := delete_all_members_getChatErr env st c hsome e hg
      have hsomeI :
          (lookupStatus (setStatus st.chats_status c .InProgress) c).isSome
            = true := by
        rw [lookupStatus_setStatus_isSome]
        exact hsome
      have hsetE := set_chat_status_ok
        (setStatus st.chats_status c .InProgress) c (.Error e) hsomeI
      have hbranch : sweepPhase env (c :: rest) st tr =
          sweepPhase env rest
            { st with
              chats_status :=
                setStatus (setStatus st.chats_status c .InProgress) c
                  (.Error e) }
            (tr ++ [Event.sweepStart c]) := by
        simp [sweepPhase, herr, hsetE]
      have hlookE : ∀ x, ¬ x = c →
          lookupStatus
            (setStatus (setStatus st.chats_status c .InProgress) c (.Error e))
            x = lookupStatus st.chats_status x := by
        intro x hxc
        rw [lookupStatus_setStatus_ne _ _ _ _ hxc,
          lookupStatus_setStatus_ne _ _ _ _ hxc]
      have hallrest : ∀ x ∈ rest,
          (lookupStatus
            ({ st with
               chats_status :=
                 setStatus (setStatus st.chats_status c .InProgress) c
                   (.Error e) } : DirState).chats_status x).isSome = true := by
        intro x hx
        have hxc : ¬ x = c := fun h => hcnotin (h ▸ hx)
        show (lookupStatus
          (setStatus (setStatus st.chats_status c .InProgress) c (.Error e))
          x).isSome = true
        rw [hlookE x hxc]
        exact hall x (List.mem_cons_of_mem c hx)
      have ihr := ih
        { st with
          chats_status :=
            setStatus (setStatus st.chats_status c .InProgress) c (.Error e) }
        (tr ++ [Event.sweepStart c]) hndrest hallrest
      refine ⟨by rw [hbranch]; exact ihr.1, ?_, ?_, ?_⟩
      · rw [hbranch, ihr.2.1, sweepIds_append]
        have : sweepIds [Event.sweepStart c] = [c] := by
          simp [sweepIds, List.filterMap_cons]
        rw [this]
        simp
      · intro c2 hc2
        rcases List.mem_cons.mp hc2 with hc2 | hc2
        · subst hc2
          constructor
          · intro chat2 hchat2
            rw [hg] at hchat2
            cases hchat2
          · intro e2 he2
            rw [hg] at he2
            cases he2
            rw [hbranch, ihr.2.2.2 c2 hcnotin]
            show lookupStatus
              (setStatus (setStatus st.chats_status c2 .InProgress) c2
                (.Error e)) c2 = some (.Error e)
            exact lookupStatus_setStatus_self _ _ _ hsomeI
        · constructor
          · intro chat2 hchat2
            rw [hbranch]
            exact (ihr.2.2.1 c2 hc2).1 chat2 hchat2
          · intro e2 he2
            rw [hbranch]
            exact (ihr.2.2.1 c2 hc2).2 e2 he2
      · intro x hx
        have hxrest : x ∉ rest := fun h => hx (List.mem_cons_of_mem c h)
        have hxc : ¬ x = c := fun h => hx (h ▸ List.mem_cons_self c rest)
        rw [hbranch, ihr.2.2.2 x hxrest]
        show lookupStatus
          (setStatus (setStatus st.chats_status c .InProgress) c (.Error e))
          x = lookupStatus st.chats_status x
        exact hlookE x hxc

/-! ## Claim C6: clear_chats claims, skips and sweeps -/

/-- Claim C6: over distinct requested ids all present in the registry and
with every store statement succeeding, clear_chats succeeds; the ids whose
status is Idle or Error are claimed and swept strictly sequentially in
request order (the sweep trace lists exactly them, in order); a claimed id
ends Idle when its live chat fetch succeeds and Error with the failure
text when it fails; an id already Queued or InProgress is skipped, keeps
its status and is never swept. -/
theorem clear_chats_spec (env : Env) (st : DirState) (chats : List Int)
    (hdb : ∀ op, env.dbOk op = true) (hnd : chats.Nodup)
    (hall : ∀ c ∈ chats, (lookupStatus st.chats_status c).isSome = true) :
    (clear_chats env st chats).res = .ok () ∧
    sweepIds (clear_chats env st chats).tr =
      chats.filter (fun c => claimable (lookupStatus st.chats_status c)) ∧
    (∀ c ∈ chats, claimable (lookupStatus st.chats_status c) = true →
      c ∈ sweepIds (clear_chats env st chats).tr ∧
      (∀ chat : TgChat, env.getChat c = .ok chat →
        lookupStatus (clear_chats env st chats).st.chats_status c
          = some .Idle) ∧
      (∀ e : String, env.getChat c = .error e →
        lookupStatus (clear_chats env st chats).st.chats_status c
          = some (.Error e))) ∧
    (∀ c ∈ chats, claimable (lookupStatus st.chats_status c) = false →
      lookupStatus (clear_chats env st chats).st.chats_status c
        = lookupStatus st.chats_status c ∧
      c ∉ sweepIds (clear_chats env st chats).tr) := by
  rcases hcp : claimPhase chats st.chats_status [] with ⟨rc, M, toClean⟩
  have hcpr := claimPhase_run chats st.chats_status [] hnd hall
  rw [hcp] at hcpr
  try dsimp only at hcpr
  have hrc : rc = .ok () := hcpr.1
  subst hrc
  have htc : toClean =
      chats.filter (fun c => claimable (lookupStatus st.chats_status c)) := by
    simpa using hcpr.2.1
  have hclear : clear_chats env st chats =
      sweepPhase env toClean { st with chats_status := M } [] := by
    simp [clear_chats, hcp]
  have hndtc : toClean.Nodup := by
    rw [htc]
    exact hnd.filter _
  have halltc : ∀ c ∈ toClean,
      (lookupStatus ({ st with chats_status := M } : DirState).chats_status
        c).isSome = true := by
    intro c hcm
    rw [htc] at hcm
    have h2 := List.mem_filter.mp hcm
    show (lookupStatus M c).isSome = true
    rw [hcpr.2.2.1 c h2.1 h2.2]
    rfl
  have hsw := sweepPhase_run env hdb toClean { st with chats_status := M } []
    hndtc halltc
  have hswids : sweepIds (clear_chats env st chats).tr = toClean := by
    rw [hclear, hsw.2.1]
    simp [sweepIds]
  refine ⟨by rw [hclear]; exact hsw.1, by rw [hswids, htc], ?_, ?_⟩
  · intro c hcm hcl
    have hctc : c ∈ toClean := by
      rw [htc]
      exact List.mem_filter.mpr ⟨hcm, hcl⟩
    refine ⟨by rw [hswids]; exact hctc, ?_, ?_⟩
    · intro chat hchat
      rw [hclear]
      exact (hsw.2.2.1 c hctc).1 chat hchat
    · intro e he
      rw [hclear]
      exact (hsw.2.2.1 c hctc).2 e he
  · intro c hcm hcl
    have hctc : c ∉ toClean := by
      rw [htc]
      intro h2
      have := (List.mem_filter.mp h2).2
      rw [hcl] at this
      cases this
    constructor
    · rw [hclear]
      have h3 := hsw.2.2.2 c hctc
      rw [h3]
      show lookupStatus M c = lookupStatus st.chats_status c
      exact hcpr.2.2.2 c (Or.inr hcl)
    · rw [hswids]
      exact hctc

/-- Witness for claim C6: requesting groups 1 (Idle) and 2 (InProgress)
sweeps exactly group 1, which ends Idle, and leaves group 2 InProgress. -/
theorem clear_chats_spec_witness :
    sweepIds (clear_chats envAllOk
      ⟨[⟨1, "a"⟩, ⟨2, "b"⟩], [], [], [(1, .Idle), (2, .InProgress)]⟩
      [1, 2]).tr = [1] ∧
    lookupStatus (clear_chats envAllOk
      ⟨[⟨1, "a"⟩, ⟨2, "b"⟩], [], [], [(1, .Idle), (2, .InProgress)]⟩
      [1, 2]).st.chats_status 1 = some .Idle ∧
    lookupStatus (clear_chats envAllOk
      ⟨[⟨1, "a"⟩, ⟨2, "b"⟩], [], [], [(1, .Idle), (2, .InProgress)]⟩
      [1, 2]).st.chats_status 2 = some .InProgress := by
  have h := clear_chats_spec envAllOk
    ⟨[⟨1, "a"⟩, ⟨2, "b"⟩], [], [], [(1, .Idle), (2, .InProgress)]⟩
    [1, 2] (fun _ => rfl) (by decide) (by decide)
  refine ⟨?_, ?_, ?_⟩
  · rw [h.2.1]
    decide
  · exact (h.2.2.1 1 (by decide) (by decide)).2.1 ⟨1, some "g", .group⟩ rfl
  · rw [(h.2.2.2 2 (by decide) (by decide)).1]
    decide

/-! ## Claim C10: an unknown id aborts the claim loop -/

theorem claimPhase_fail (pre : List Int) (c : Int) (post : List Int) :
    ∀ (m : List (Int × ChatCleaningStatus)) (acc : List Int),
      pre.Nodup →
      (∀ p ∈ pre, (lookupStatus m p).isSome = true) →
      lookupStatus m c = none →
      (claimPhase (pre ++ c :: post) m acc).1 = .error "chat not found" ∧
      (∀ p ∈ pre, claimable (lookupStatus m p) = true →
        lookupStatus (claimPhase (pre ++ c :: post) m acc).2.1 p
          = some .Queued) ∧
      (∀ x, x ∉ pre →
        lookupStatus (claimPhase (pre ++ c :: post) m acc).2.1 x
          = lookupStatus m x) := by
  induction pre with
  | nil =>
    intro m acc _ _ hc
    simp [claimPhase, hc]
  | cons p rest ih =>
    intro m acc hnd hall hc
    have hpnotin : p ∉ rest := (List.nodup_cons.mp hnd).1
    have hndrest : rest.Nodup := (List.nodup_cons.mp hnd).2
    have hpc : ¬ p = c := by
      intro h
      have h2 := hall p (List.mem_cons_self p rest)
      rw [h, hc] at h2
      cases h2
    cases hs : lookupStatus m p with
    | none =>
      have h2 := hall p (List.mem_cons_self p rest)
      rw [hs] at h2
      cases h2
    | some s =>
      by_cases hcl : claimable (some s) = true
      · have hbranch : claimPhase ((p :: rest) ++ c :: post) m acc =
            claimPhase (rest ++ c :: post) (setStatus m p .Queued)
              (acc ++ [p]) := by
          cases s <;> simp_all [claimPhase, claimable, hs]
        have hallrest : ∀ x ∈ rest,
            (lookupStatus (setStatus m p .Queued) x).isSome = true := by
          intro x hx
          rw [lookupStatus_setStatus_isSome]
          exact hall x (List.mem_cons_of_mem p hx)
        have hc2 : lookupStatus (setStatus m p .Queued) c = none := by
          rw [lookupStatus_setStatus_ne m p c .Queued
            (fun h => hpc h.symm)]
          exact hc
        have ihr := ih (setStatus m p .Queued) (acc ++ [p]) hndrest
          hallrest hc2
        refine ⟨by rw [hbranch]; exact ihr.1, ?_, ?_⟩
        · intro q hq hclq
          rcases List.mem_cons.mp hq with hq | hq
          · subst hq
            rw [hbranch, ihr.2.2 q hpnotin]
            exact lookupStatus_setStatus_self m q .Queued (by rw [hs]; rfl)
          · have hqp : ¬ q = p := fun h => hpnotin (h ▸ hq)
            rw [hbranch]
            apply ihr.2.1 q hq
            rw [lookupStatus_setStatus_ne m p q .Queued hqp]
            exact hclq
        · intro x hx
          have hxrest : x ∉ rest := fun h => hx (List.mem_cons_of_mem p h)
          have hxp : ¬ x = p := fun h => hx (h ▸ List.mem_cons_self p rest)
          rw [hbranch, ihr.2.2 x hxrest,
            lookupStatus_setStatus_ne m p x .Queued hxp]
      · have hclf : claimable (some s) = false := by
          cases h2 : claimable (some s)
          · rfl
          · exact absurd h2 hcl
        have hbranch : claimPhase ((p :: rest) ++ c :: post) m acc =
            claimPhase (rest ++ c :: post) m acc := by
          cases s <;> simp_all [claimPhase, claimable, hs]
        have ihr := ih m acc hndrest
          (fun x hx => hall x (List.mem_cons_of_mem p hx)) hc
        refine ⟨by rw [hbranch]; exact ihr.1, ?_, ?_⟩
        · intro q hq hclq
          rcases List.mem_cons.mp hq with hq | hq
          · subst hq
            rw [hs] at hclq
            rw [hclq] at hclf
            cases hclf
          · rw [hbranch]
            exact ihr.2.1 q hq hclq
        · intro x hx
          have hxrest : x ∉ rest := fun h => hx (List.mem_cons_of_mem p h)
          rw [hbranch]
          exact ihr.2.2 x hxrest

/-- Claim C10: when the requested list is pre followed by an unknown id c
and then post, clear_chats fails with the not-found error during the claim
loop before any sweep runs (its trace is empty); the claimable ids of pre
were already set to Queued and stay so, and every id outside pre keeps its
status, those after c never having been examined. -/
theorem clear_chats_unknown_id (env : Env) (st : DirState)
    (pre : List Int) (c : Int) (post : List Int)
    (hc : lookupStatus st.chats_status c = none)
    (hpre : ∀ p ∈ pre, (lookupStatus st.chats_status p).isSome = true)
    (hnd : pre.Nodup) :
    (clear_chats env st (pre ++ c :: post)).res = .error "chat not found" ∧
    (clear_chats env st (pre ++ c :: post)).tr = [] ∧
    (∀ p ∈ pre, claimable (lookupStatus st.chats_status p) = true →
      lookupStatus (clear_chats env st (pre ++ c :: post)).st.chats_status p
        = some .Queued) ∧
    (∀ x, x ∉ pre →
      lookupStatus (clear_chats env st (pre ++ c :: post)).st.chats_status x
        = lookupStatus st.chats_status x) := by
  rcases hcp : claimPhase (pre ++ c :: post) st.chats_status []
    with ⟨rc, M, toClean⟩
  have hf := claimPhase_fail pre c post st.chats_status [] hnd hpre hc
  rw [hcp] at hf
  try dsimp only at hf
  have hrc : rc = .error "chat not found" := hf.1
  subst hrc
  have hclear : clear_chats env st (pre ++ c :: post) =
      { res := .error "chat not found",
        st := { st with chats_status := M }, tr := [] } := by
    simp [clear_chats, hcp]
  refine ⟨by rw [hclear], by rw [hclear], ?_, ?_⟩
  · intro p hp hclp
    rw [hclear]
    exact hf.2.1 p hp hclp
  · intro x hx
    rw [hclear]
    exact hf.2.2 x hx

/-- Witness for claim C10: requesting groups 1, 2, 3 where 2 is unknown
fails with the not-found error, leaves group 1 Queued, group 3 untouched
at Idle, and runs no sweep. -/
theorem clear_chats_unknown_id_witness :
    (clear_chats envAllOk ⟨[], [], [], [(1, .Idle), (3, .Idle)]⟩
      [1, 2, 3]).res = .error "chat not found" ∧
    (clear_chats envAllOk ⟨[], [], [], [(1, .Idle), (3, .Idle)]⟩
      [1, 2, 3]).tr = [] ∧
    lookupStatus (clear_chats envAllOk
      ⟨[], [], [], [(1, .Idle), (3, .Idle)]⟩ [1, 2, 3]).st.chats_status 1
      = some .Queued ∧
    lookupStatus (clear_chats envAllOk
      ⟨[], [], [], [(1, .Idle), (3, .Idle)]⟩ [1, 2, 3]).st.chats_status 3
      = some .Idle := by
  have h := clear_chats_unknown_id envAllOk
    ⟨[], [], [], [(1, .Idle), (3, .Idle)]⟩ [1] 2 [3] rfl
    (by decide) (by decide)
  simp only [List.cons_append, List.nil_append] at h
  refine ⟨h.1, h.2.1, h.2.2.1 1 (by decide) (by decide), ?_⟩
  rw [h.2.2.2 3 (by decide)]
  decide

end TgSender
